import Mathlib

/-!
Shallow embedding of the `skillkit` Python client library
(`src/clients/python/skillkit/models.py` and `client.py`).

JSON values are modelled by the inductive `Json`; Python/JSON numbers that
are integers are `jint`, non-integral floats are `jfloat` carrying a
rational (no float arithmetic is performed anywhere in the source, floats
are only carried through).  Pydantic validation is modelled in its default
lax mode, as pydantic v2 documents it: `str` fields accept exactly
strings, `list[str]` fields exactly arrays of strings, while `int` and
`float` fields additionally accept lax-convertible values — integral
floats and numeric strings for `int` (`pyLaxInt`), integers and numeric
strings for `float` (`pyLaxFloat`); booleans and `null` are rejected for
all of these.  Exotic numeric string formats (exponent notation,
`nan`/`inf`) are not modelled.  A Python `dict` is modelled as an
association list with lookup of the first matching key (JSON objects have
unique keys after `json.loads`).

Fallible operations return `Except ClientError _`: `ClientError.httpStatus`
models `httpx.HTTPStatusError` raised by `response.raise_for_status()`
(which raises exactly when the status is not 2xx) and carries the status
code and body; `ClientError.validation` models pydantic `ValidationError`,
`KeyError` on `data["k"]`, and `TypeError` on `Skill(**non_dict)` — every
parse-time failure of a 2xx body.
-/

namespace SkillKit

/-- JSON values as produced by `response.json()`. -/
inductive Json where
  | jnull
  | jbool (b : Bool)
  | jint (n : Int)
  | jfloat (q : Rat)
  | jstr (s : String)
  | jarr (elems : List Json)
  | jobj (fields : List (String × Json))
deriving Repr

/-- Errors a client operation can fail with (transport errors are out of
scope of the embedding; they propagate unmodified from the HTTP layer). -/
inductive ClientError where
  | httpStatus (code : Nat) (body : Json)
  | validation (msg : String)
deriving Repr

/-- An HTTP response as seen by the client methods: status code plus
already-decoded JSON body. -/
structure HttpResponse where
  status : Nat
  body : Json

/-- `httpx.Response.is_success`: status in 200..299. -/
def is2xx (s : Nat) : Bool := 200 ≤ s && s < 300

/-- `response.raise_for_status()`: raises `HTTPStatusError` (carrying the
status code and the response body) exactly when the status is not 2xx. -/
def raiseForStatus (resp : HttpResponse) : Except ClientError Unit :=
  if is2xx resp.status then .ok () else .error (.httpStatus resp.status resp.body)

/-- Python dict key lookup on the modelled JSON object. -/
def getField (kvs : List (String × Json)) (k : String) : Option Json :=
  kvs.lookup k

/-! ### Pydantic lax number conversion

Pydantic's default (lax) validation coerces some mistyped values: an `int`
field accepts integral floats and integer strings, a `float` field accepts
integers and numeric strings.  Booleans are rejected for number fields in
pydantic v2, and `None` is rejected unless the field is `Optional`. -/

/-- Strip leading and trailing whitespace (pydantic trims numeric strings). -/
def trimWs (cs : List Char) : List Char :=
  ((cs.dropWhile Char.isWhitespace).reverse.dropWhile Char.isWhitespace).reverse

/-- The value of a nonempty all-digit character list, `none` otherwise. -/
def decDigits? : List Char → Option Nat
  | [] => none
  | cs => cs.foldl (fun acc c =>
      match acc with
      | none => none
      | some n => if c.isDigit then some (n * 10 + (c.toNat - 48)) else none)
      (some 0)

/-- Modelled from pydantic v2 lax conversion: parse a string as an integer —
optional surrounding whitespace, optional sign, decimal digits, optionally
followed by a dot and one or more zeros (integral float strings such as
`5.0`).  Exponent notation is not modelled. -/
def parseIntString (s : String) : Option Int :=
  let cs := trimWs s.data
  let signed : Bool × List Char :=
    match cs with
    | '-' :: rest => (true, rest)
    | '+' :: rest => (false, rest)
    | rest => (false, rest)
  let ip := signed.2.takeWhile (fun c => !(c == '.'))
  let rest := signed.2.dropWhile (fun c => !(c == '.'))
  let fracOk : Bool :=
    match rest with
    | [] => true
    | '.' :: fs => !fs.isEmpty && fs.all (fun c => c == '0')
    | _ => false
  match decDigits? ip, fracOk with
  | some n, true => some (if signed.1 then -(n : Int) else (n : Int))
  | _, _ => none

/-- Modelled from pydantic v2 lax conversion: parse a string as a (finite,
decimal) float — optional surrounding whitespace, optional sign, digits
with an optional fractional part; at least one digit overall.  Exponent
notation and `nan`/`inf` are not modelled. -/
def parseFloatString (s : String) : Option Rat :=
  let cs := trimWs s.data
  let signed : Bool × List Char :=
    match cs with
    | '-' :: rest => (true, rest)
    | '+' :: rest => (false, rest)
    | rest => (false, rest)
  let ip := signed.2.takeWhile (fun c => !(c == '.'))
  let rest := signed.2.dropWhile (fun c => !(c == '.'))
  let fp : Option (List Char) :=
    match rest with
    | [] => some []
    | '.' :: ds => some ds
    | _ => none
  match fp with
  | none => none
  | some ds =>
      if (ip ++ ds).isEmpty || !(ip ++ ds).all Char.isDigit then none
      else
        let q : Rat := (((decDigits? (ip ++ ds)).getD 0 : Int) : Rat) / ((10 : Rat) ^ ds.length)
        some (if signed.1 then -q else q)

/-- The integer a JSON value lax-converts to for an `int` field, if any:
integers pass through, floats are accepted exactly when integral, integer
strings are parsed; booleans, `null`, arrays and objects are rejected. -/
def pyLaxInt : Json → Option Int
  | Json.jint n => some n
  | Json.jfloat q => if q.den = 1 then some q.num else none
  | Json.jstr s => parseIntString s
  | _ => none

/-- The rational a JSON value lax-converts to for a `float` field, if any:
numbers pass through (integers exactly), numeric strings are parsed;
booleans, `null`, arrays and objects are rejected. -/
def pyLaxFloat : Json → Option Rat
  | Json.jfloat q => some q
  | Json.jint n => some (n : Rat)
  | Json.jstr s => parseFloatString s
  | _ => none

/-! ### Field getters (pydantic field validation) -/

/-- Required `str` field. -/
def getReqStr (kvs : List (String × Json)) (k : String) : Except ClientError String :=
  match getField kvs k with
  | some (Json.jstr s) => .ok s
  | some _ => .error (.validation k)
  | none => .error (.validation k)

/-- Required `int` field: present and lax-convertible to an integer. -/
def getReqInt (kvs : List (String × Json)) (k : String) : Except ClientError Int :=
  match getField kvs k with
  | some v =>
      match pyLaxInt v with
      | some n => .ok n
      | none => .error (.validation k)
  | none => .error (.validation k)

/-- `Optional[str] = None` field: absent or `null` gives `None`. -/
def getOptStr (kvs : List (String × Json)) (k : String) : Except ClientError (Option String) :=
  match getField kvs k with
  | none => .ok none
  | some Json.jnull => .ok none
  | some (Json.jstr s) => .ok (some s)
  | some _ => .error (.validation k)

/-- `Optional[int] = None` field: absent or `null` gives `None`, any other
value must lax-convert to an integer. -/
def getOptInt (kvs : List (String × Json)) (k : String) : Except ClientError (Option Int) :=
  match getField kvs k with
  | none => .ok none
  | some Json.jnull => .ok none
  | some v =>
      match pyLaxInt v with
      | some n => .ok (some n)
      | none => .error (.validation k)

/-- `int = d` field (non-optional with default): absent gives the default,
a supplied value must lax-convert to an integer (`null` is rejected: the
field is not `Optional`). -/
def getIntD (kvs : List (String × Json)) (k : String) (d : Int) : Except ClientError Int :=
  match getField kvs k with
  | none => .ok d
  | some v =>
      match pyLaxInt v with
      | some n => .ok n
      | none => .error (.validation k)

/-- `float = d` field: absent gives the default, a supplied value must
lax-convert to a float (`null` is rejected: the field is not `Optional`). -/
def getFloatD (kvs : List (String × Json)) (k : String) (d : Rat) : Except ClientError Rat :=
  match getField kvs k with
  | none => .ok d
  | some v =>
      match pyLaxFloat v with
      | some q => .ok q
      | none => .error (.validation k)

/-- A JSON array of strings, for `Optional[list[str]] = None`. -/
def asStrList : List Json → Except ClientError (List String)
  | [] => .ok []
  | Json.jstr s :: rest => do
      let tl ← asStrList rest
      .ok (s :: tl)
  | _ :: _ => .error (.validation "list[str]")

/-- `Optional[list[str]] = None` field. -/
def getOptStrList (kvs : List (String × Json)) (k : String) :
    Except ClientError (Option (List String)) :=
  match getField kvs k with
  | none => .ok none
  | some Json.jnull => .ok none
  | some (Json.jarr xs) => do
      let ss ← asStrList xs
      .ok (some ss)
  | some _ => .error (.validation k)

/-! ### Data model records (`models.py`) -/

/-- `class Skill(BaseModel)`. -/
structure Skill where
  name : String
  description : Option String := none
  source : String
  repo : Option String := none
  tags : Option (List String) := none
  category : Option String := none
  content : Option String := none
  stars : Option Int := none
  installs : Option Int := none
deriving Repr, DecidableEq

/-- `class HealthResponse(BaseModel)`. -/
structure HealthResponse where
  status : String
  version : String
  skill_count : Int := 0
  uptime : Int := 0
deriving Repr, DecidableEq

/-- `class CacheStats(BaseModel)`. -/
structure CacheStats where
  hits : Int
  misses : Int
  size : Int
  max_size : Int := 0
  hit_rate : Rat := 0
deriving Repr, DecidableEq

/-- `class Category(BaseModel)`. -/
structure Category where
  name : String
  count : Int
deriving Repr, DecidableEq

/-- `class SearchResponse(BaseModel)`. -/
structure SearchResponse where
  skills : List Skill
  total : Int
  query : String
  limit : Int
deriving Repr, DecidableEq

/-- `class CategoriesResponse(BaseModel)`. -/
structure CategoriesResponse where
  categories : List Category
  total : Int
deriving Repr, DecidableEq

/-- `class TrendingResponse(BaseModel)`. -/
structure TrendingResponse where
  skills : List Skill
  limit : Int
deriving Repr, DecidableEq

/-! ### Pydantic constructors from a mapping (`Model(**kwargs)`) -/

/-- `Skill(**kvs)`: pydantic construction of `Skill` from a mapping. -/
def validateSkill (kvs : List (String × Json)) : Except ClientError Skill := do
  let name ← getReqStr kvs "name"
  let description ← getOptStr kvs "description"
  let source ← getReqStr kvs "source"
  let repo ← getOptStr kvs "repo"
  let tags ← getOptStrList kvs "tags"
  let category ← getOptStr kvs "category"
  let content ← getOptStr kvs "content"
  let stars ← getOptInt kvs "stars"
  let installs ← getOptInt kvs "installs"
  .ok { name, description, source, repo, tags, category, content, stars, installs }

/-- `Skill(**j)` where `j` came from a JSON array element or body: a
non-object raises `TypeError` (modelled as a validation failure). -/
def parseSkill : Json → Except ClientError Skill
  | Json.jobj kvs => validateSkill kvs
  | _ => .error (.validation "Skill: not an object")

/-- `[Skill(**s) for s in xs]`: element-wise parse, first failure aborts. -/
def parseSkillList : List Json → Except ClientError (List Skill)
  | [] => .ok []
  | j :: rest => do
      let sk ← parseSkill j
      let tl ← parseSkillList rest
      .ok (sk :: tl)

/-- `Category(**j)`. -/
def parseCategory : Json → Except ClientError Category
  | Json.jobj kvs => do
      let name ← getReqStr kvs "name"
      let count ← getReqInt kvs "count"
      .ok { name, count }
  | _ => .error (.validation "Category: not an object")

/-- `[Category(**c) for c in xs]`. -/
def parseCategoryList : List Json → Except ClientError (List Category)
  | [] => .ok []
  | j :: rest => do
      let c ← parseCategory j
      let tl ← parseCategoryList rest
      .ok (c :: tl)

/-- `HealthResponse(**kvs)`: pydantic construction from a mapping keyed by
field names. -/
def validateHealthResponse (kvs : List (String × Json)) : Except ClientError HealthResponse := do
  let status ← getReqStr kvs "status"
  let version ← getReqStr kvs "version"
  let skill_count ← getIntD kvs "skill_count" 0
  let uptime ← getIntD kvs "uptime" 0
  .ok { status, version, skill_count, uptime }

/-- `CacheStats(**kvs)`. -/
def validateCacheStats (kvs : List (String × Json)) : Except ClientError CacheStats := do
  let hits ← getReqInt kvs "hits"
  let misses ← getReqInt kvs "misses"
  let size ← getReqInt kvs "size"
  let max_size ← getIntD kvs "max_size" 0
  let hit_rate ← getFloatD kvs "hit_rate" 0
  .ok { hits, misses, size, max_size, hit_rate }

/-- `Category(**kvs)`. -/
def validateCategory (kvs : List (String × Json)) : Except ClientError Category := do
  let name ← getReqStr kvs "name"
  let count ← getReqInt kvs "count"
  .ok { name, count }

/-- A `list[Skill]` field validated from a JSON value: must be an array,
each element a dict validated into a `Skill`. -/
def getSkillListField (kvs : List (String × Json)) (k : String) :
    Except ClientError (List Skill) :=
  match getField kvs k with
  | some (Json.jarr xs) => parseSkillList xs
  | some _ => .error (.validation k)
  | none => .error (.validation k)

/-- A `list[Category]` field validated from a JSON value. -/
def getCategoryListField (kvs : List (String × Json)) (k : String) :
    Except ClientError (List Category) :=
  match getField kvs k with
  | some (Json.jarr xs) => parseCategoryList xs
  | some _ => .error (.validation k)
  | none => .error (.validation k)

/-- `SearchResponse(**kvs)`. -/
def validateSearchResponse (kvs : List (String × Json)) : Except ClientError SearchResponse := do
  let skills ← getSkillListField kvs "skills"
  let total ← getReqInt kvs "total"
  let query ← getReqStr kvs "query"
  let limit ← getReqInt kvs "limit"
  .ok { skills, total, query, limit }

/-- `CategoriesResponse(**kvs)`. -/
def validateCategoriesResponse (kvs : List (String × Json)) :
    Except ClientError CategoriesResponse := do
  let categories ← getCategoryListField kvs "categories"
  let total ← getReqInt kvs "total"
  .ok { categories, total }

/-- `TrendingResponse(**kvs)`. -/
def validateTrendingResponse (kvs : List (String × Json)) :
    Except ClientError TrendingResponse := do
  let skills ← getSkillListField kvs "skills"
  let limit ← getReqInt kvs "limit"
  .ok { skills, limit }

/-! ### Percent-encoding: `urllib.parse.quote` with an empty safe set -/

/-- UTF-8 encoding of a character, as `str.encode("utf-8")` produces
(CPython's default encoding inside `urllib.parse.quote`). -/
def charUtf8 (c : Char) : List Nat :=
  let n := c.toNat
  if n < 0x80 then [n]
  else if n < 0x800 then
    [0xC0 ||| (n >>> 6), 0x80 ||| (n &&& 0x3F)]
  else if n < 0x10000 then
    [0xE0 ||| (n >>> 12), 0x80 ||| ((n >>> 6) &&& 0x3F), 0x80 ||| (n &&& 0x3F)]
  else
    [0xF0 ||| (n >>> 18), 0x80 ||| ((n >>> 12) &&& 0x3F),
     0x80 ||| ((n >>> 6) &&& 0x3F), 0x80 ||| (n &&& 0x3F)]

/-- `urllib.parse._ALWAYS_SAFE`: ASCII letters, digits, and `_.-~`.  With
an empty `safe` argument these are the only bytes left unencoded. -/
def isAlwaysSafe (b : Nat) : Bool :=
  (65 ≤ b && b ≤ 90) || (97 ≤ b && b ≤ 122) || (48 ≤ b && b ≤ 57) ||
    b == 95 || b == 46 || b == 45 || b == 126

/-- Uppercase hex digit, as in the two-digit uppercase hex formatting
CPython uses for percent-escapes. -/
def hexDigit (n : Nat) : Char :=
  if n < 10 then Char.ofNat (48 + n) else Char.ofNat (55 + n)

/-- One byte of `quote_from_bytes`: safe bytes pass through, every other
byte becomes `%XX` with uppercase hex. -/
def quoteByteChars (b : Nat) : List Char :=
  if isAlwaysSafe b then [Char.ofNat b]
  else ['%', hexDigit (b / 16), hexDigit (b % 16)]

/-- `urllib.parse.quote` of `s` with an empty safe set, character list form. -/
def pyQuoteChars (s : String) : List Char :=
  (s.data.flatMap charUtf8).flatMap quoteByteChars

/-- `urllib.parse.quote` of `s` with an empty safe set. -/
def pyQuote (s : String) : String :=
  String.mk (pyQuoteChars s)

/-! ### Requests built by the client methods -/

/-- An outgoing HTTP request: method, path, query parameters in insertion
order, and an optional JSON body (`json=` keyword of httpx). -/
structure Request where
  method : String
  path : String
  params : List (String × String)
  jsonBody : Option Json
deriving Repr

/-- `health()`: `client.get("/health")`. -/
def healthRequest : Request :=
  { method := "GET", path := "/health", params := [], jsonBody := none }

/-- `search()`: `params = {"q": query, "limit": str(limit)}`, plus
`include_content = "true"` only when the flag is set, then
`client.get("/search", params=params)`. -/
def searchRequest (query : String) (limit : Int) (includeContent : Bool) : Request :=
  { method := "GET", path := "/search",
    params := [("q", query), ("limit", toString limit)] ++
      (if includeContent then [("include_content", "true")] else []),
    jsonBody := none }

/-- The `filters` dict built by `search_with_filters`: Python truthiness
means an empty list / empty string / `None` is skipped. -/
def swfFilters (tags : Option (List String)) (category : Option String)
    (source : Option String) : List (String × Json) :=
  (match tags with
   | some ts => if ts.isEmpty then [] else [("tags", Json.jarr (ts.map Json.jstr))]
   | none => []) ++
  (match category with
   | some c => if c = "" then [] else [("category", Json.jstr c)]
   | none => []) ++
  (match source with
   | some s => if s = "" then [] else [("source", Json.jstr s)]
   | none => [])

/-- `search_with_filters()`: `client.post("/search", json=body)` where
`body = {"query":…, "limit":…, "include_content":…}` plus `"filters"`
exactly when the filters dict is non-empty. -/
def searchWithFiltersRequest (query : String) (limit : Int) (includeContent : Bool)
    (tags : Option (List String)) (category : Option String)
    (source : Option String) : Request :=
  let filters := swfFilters tags category source
  { method := "POST", path := "/search", params := [],
    jsonBody := some (Json.jobj
      ([("query", Json.jstr query), ("limit", Json.jint limit),
        ("include_content", Json.jbool includeContent)] ++
       (if filters.isEmpty then [] else [("filters", Json.jobj filters)]))) }

/-- `get_skill()`: a GET whose path interpolates `quote(source)` and
`quote(skill_id)`, both with an empty safe set, between `/skills/` and `/`. -/
def getSkillRequest (source : String) (skillId : String) : Request :=
  { method := "GET", path := "/skills/" ++ pyQuote source ++ "/" ++ pyQuote skillId,
    params := [], jsonBody := none }

/-- `trending()`: `client.get("/trending", params={"limit": str(limit)})`. -/
def trendingRequest (limit : Int) : Request :=
  { method := "GET", path := "/trending", params := [("limit", toString limit)],
    jsonBody := none }

/-- `categories()`: `client.get("/categories")`. -/
def categoriesRequest : Request :=
  { method := "GET", path := "/categories", params := [], jsonBody := none }

/-- `cache_stats()`: `client.get("/cache/stats")`. -/
def cacheStatsRequest : Request :=
  { method := "GET", path := "/cache/stats", params := [], jsonBody := none }

/-! ### Response handling of each client method -/

/-- `health()` body handling: `HealthResponse(status=data["status"],
version=data["version"], skill_count=data.get("skillCount", 0),
uptime=data.get("uptime", 0))`. -/
def healthBodyParse (body : Json) : Except ClientError HealthResponse :=
  match body with
  | Json.jobj data => do
      let status ← getReqStr data "status"
      let version ← getReqStr data "version"
      let skill_count ← getIntD data "skillCount" 0
      let uptime ← getIntD data "uptime" 0
      .ok { status, version, skill_count, uptime }
  | _ => .error (.validation "health: body not an object")

/-- `health()` after the request: `raise_for_status()`, then parse. -/
def healthParse (resp : HttpResponse) : Except ClientError HealthResponse := do
  raiseForStatus resp
  healthBodyParse resp.body

/-- Shared body handling of `search` and `search_with_filters`:
`SearchResponse(skills=[Skill(**s) for s in data["skills"]],
total=data["total"], query=data["query"], limit=data["limit"])`. -/
def searchBodyParse (body : Json) : Except ClientError SearchResponse :=
  match body with
  | Json.jobj data => do
      let skills ← getSkillListField data "skills"
      let total ← getReqInt data "total"
      let query ← getReqStr data "query"
      let limit ← getReqInt data "limit"
      .ok { skills, total, query, limit }
  | _ => .error (.validation "search: body not an object")

/-- `search()` response handling. -/
def searchParse (resp : HttpResponse) : Except ClientError SearchResponse := do
  raiseForStatus resp
  searchBodyParse resp.body

/-- `search_with_filters()` response handling (identical to `search`). -/
def searchWithFiltersParse (resp : HttpResponse) : Except ClientError SearchResponse := do
  raiseForStatus resp
  searchBodyParse resp.body

/-- `get_skill()`: `raise_for_status()` then `Skill(**response.json())`. -/
def getSkillParse (resp : HttpResponse) : Except ClientError Skill := do
  raiseForStatus resp
  parseSkill resp.body

/-- `trending()` body handling: `[Skill(**s) for s in data["skills"]]` —
the envelope's other fields (`limit`) are never read. -/
def trendingBodyParse (body : Json) : Except ClientError (List Skill) :=
  match body with
  | Json.jobj data => getSkillListField data "skills"
  | _ => .error (.validation "trending: body not an object")

/-- `trending()`: `raise_for_status()` then parse. -/
def trendingParse (resp : HttpResponse) : Except ClientError (List Skill) := do
  raiseForStatus resp
  trendingBodyParse resp.body

/-- `categories()` body handling: `[Category(**c) for c in
data["categories"]]` — the envelope's `total` is never read. -/
def categoriesBodyParse (body : Json) : Except ClientError (List Category) :=
  match body with
  | Json.jobj data => getCategoryListField data "categories"
  | _ => .error (.validation "categories: body not an object")

/-- `categories()`: `raise_for_status()` then parse. -/
def categoriesParse (resp : HttpResponse) : Except ClientError (List Category) := do
  raiseForStatus resp
  categoriesBodyParse resp.body

/-- `cache_stats()` body handling: `CacheStats(hits=data["hits"],
misses=data["misses"], size=data["size"], max_size=data.get("maxSize", 0),
hit_rate=data.get("hitRate", 0.0))`. -/
def cacheStatsBodyParse (body : Json) : Except ClientError CacheStats :=
  match body with
  | Json.jobj data => do
      let hits ← getReqInt data "hits"
      let misses ← getReqInt data "misses"
      let size ← getReqInt data "size"
      let max_size ← getIntD data "maxSize" 0
      let hit_rate ← getFloatD data "hitRate" 0
      .ok { hits, misses, size, max_size, hit_rate }
  | _ => .error (.validation "cache_stats: body not an object")

/-- `cache_stats()`: `raise_for_status()` then parse. -/
def cacheStatsParse (resp : HttpResponse) : Except ClientError CacheStats := do
  raiseForStatus resp
  cacheStatsBodyParse resp.body

/-! ### Session lifecycle (`__init__`, `_get_client`, `__aenter__`,
`__aexit__`, `close`)

The only mutable state of `SkillKitClient` is `self._client`; sessions are
identified by an allocation counter so that distinct `httpx.AsyncClient`
instances are distinguishable. -/

/-- The client's session-relevant state: the `self._client` handle
(`none` = `None`) and an allocation counter naming the next fresh session. -/
structure ClientState where
  handle : Option Nat
  nextId : Nat
deriving Repr, DecidableEq

/-- `__init__`: `self._client = None`. -/
def initState : ClientState := { handle := none, nextId := 0 }

/-- `_get_client()`: lazily create the session if absent, then return it.
Every API method calls this first. -/
def getClient (s : ClientState) : Nat × ClientState :=
  match s.handle with
  | some id => (id, s)
  | none => (s.nextId, { handle := some s.nextId, nextId := s.nextId + 1 })

/-- `__aenter__`: unconditionally create a new session and store it. -/
def aenter (s : ClientState) : ClientState :=
  { handle := some s.nextId, nextId := s.nextId + 1 }

/-- `close()`: if a session is held, close it (`aclose`) and clear the
handle; otherwise do nothing. -/
def close (s : ClientState) : ClientState :=
  match s.handle with
  | some _ => { handle := none, nextId := s.nextId }
  | none => s

/-- `__aexit__`: same body as `close()`. -/
def aexit (s : ClientState) : ClientState :=
  match s.handle with
  | some _ => { handle := none, nextId := s.nextId }
  | none => s

/-- The sessions currently held by the client (as a list: `Option.toList`). -/
def heldSessions (s : ClientState) : List Nat := s.handle.toList

/-- One externally-triggered transition of the client state: an API call
(which touches the session only through `_get_client`), entering or
exiting the `async with` scope, or `close()`. -/
inductive Step : ClientState → ClientState → Prop where
  | apiCall (s : ClientState) : Step s (getClient s).2
  | enter (s : ClientState) : Step s (aenter s)
  | exitScope (s : ClientState) : Step s (aexit s)
  | closeCall (s : ClientState) : Step s (close s)

/-- States reachable from a freshly constructed client. -/
inductive Reachable : ClientState → Prop where
  | init : Reachable initState
  | step {s s' : ClientState} : Reachable s → Step s s' → Reachable s'

/-- Pydantic attribute assignment on a `Skill`: `models.py` sets no
`model_config`, so pydantic's default applies — instances are not frozen
and `skill.name = v` succeeds, storing `v`.  The returned record is the
post-assignment state of the object. -/
def Skill.setName (sk : Skill) (v : String) : Skill := { sk with name := v }

/-- A concrete well-formed skill, as in the repository's tests. -/
def exampleSkill : Skill := { name := "react-perf", source := "owner/repo" }

/-- Python truthiness of an `Optional[list[str]]`: `None` and `[]` are
falsy (`if tags:` in the source). -/
def pyTruthyList : Option (List String) → Bool
  | some (_ :: _) => true
  | _ => false

/-- Python truthiness of an `Optional[str]`: `None` and `""` are falsy
(`if category:` / `if source:` in the source). -/
def pyTruthyStr : Option String → Bool
  | some s => !(s == "")
  | none => false

/-! ### Shape conformance of an input mapping

One predicate per pydantic field kind, stating that the mapping supplies
the field with the expected JSON type (or legitimately omits it). -/

/-- Required `str` field present with a string value. -/
def ReqStrOk (kvs : List (String × Json)) (k : String) : Prop :=
  ∃ s, getField kvs k = some (Json.jstr s)

/-- Required `int` field present with a value lax-convertible to an
integer. -/
def ReqIntOk (kvs : List (String × Json)) (k : String) : Prop :=
  ∃ v n, getField kvs k = some v ∧ pyLaxInt v = some n

/-- `Optional[str]` field absent, `null`, or a string. -/
def OptStrOk (kvs : List (String × Json)) (k : String) : Prop :=
  getField kvs k = none ∨ getField kvs k = some Json.jnull ∨
    ∃ s, getField kvs k = some (Json.jstr s)

/-- `Optional[int]` field absent, `null`, or lax-convertible to an
integer. -/
def OptIntOk (kvs : List (String × Json)) (k : String) : Prop :=
  getField kvs k = none ∨ getField kvs k = some Json.jnull ∨
    ∃ v n, getField kvs k = some v ∧ pyLaxInt v = some n

/-- `Optional[list[str]]` field absent, `null`, or an array of strings. -/
def OptStrListOk (kvs : List (String × Json)) (k : String) : Prop :=
  getField kvs k = none ∨ getField kvs k = some Json.jnull ∨
    ∃ ss : List String, getField kvs k = some (Json.jarr (ss.map Json.jstr))

/-- `int = d` field absent (default applies) or lax-convertible to an
integer (`null` is not accepted: the field is not `Optional`). -/
def IntDOk (kvs : List (String × Json)) (k : String) : Prop :=
  getField kvs k = none ∨ ∃ v n, getField kvs k = some v ∧ pyLaxInt v = some n

/-- `float = d` field absent or lax-convertible to a float. -/
def FloatDOk (kvs : List (String × Json)) (k : String) : Prop :=
  getField kvs k = none ∨ ∃ v q, getField kvs k = some v ∧ pyLaxFloat v = some q

/-- `list[Skill]` field: an array whose every element validates as `Skill`. -/
def SkillListOk (kvs : List (String × Json)) (k : String) : Prop :=
  ∃ xs, getField kvs k = some (Json.jarr xs) ∧ ∀ j ∈ xs, ∃ sk, parseSkill j = .ok sk

/-- `list[Category]` field: an array whose every element validates. -/
def CategoryListOk (kvs : List (String × Json)) (k : String) : Prop :=
  ∃ xs, getField kvs k = some (Json.jarr xs) ∧ ∀ j ∈ xs, ∃ c, parseCategory j = .ok c

/-- The mapping conforms to `Skill`'s declared fields. -/
def SkillConformant (kvs : List (String × Json)) : Prop :=
  ReqStrOk kvs "name" ∧ OptStrOk kvs "description" ∧ ReqStrOk kvs "source" ∧
    OptStrOk kvs "repo" ∧ OptStrListOk kvs "tags" ∧ OptStrOk kvs "category" ∧
    OptStrOk kvs "content" ∧ OptIntOk kvs "stars" ∧ OptIntOk kvs "installs"

/-- The mapping conforms to `SearchResponse`'s declared fields. -/
def SearchResponseConformant (kvs : List (String × Json)) : Prop :=
  SkillListOk kvs "skills" ∧ ReqIntOk kvs "total" ∧ ReqStrOk kvs "query" ∧
    ReqIntOk kvs "limit"

/-- The mapping conforms to `HealthResponse`'s declared fields. -/
def HealthResponseConformant (kvs : List (String × Json)) : Prop :=
  ReqStrOk kvs "status" ∧ ReqStrOk kvs "version" ∧ IntDOk kvs "skill_count" ∧
    IntDOk kvs "uptime"

/-- The mapping conforms to `CacheStats`'s declared fields. -/
def CacheStatsConformant (kvs : List (String × Json)) : Prop :=
  ReqIntOk kvs "hits" ∧ ReqIntOk kvs "misses" ∧ ReqIntOk kvs "size" ∧
    IntDOk kvs "max_size" ∧ FloatDOk kvs "hit_rate"

/-- The mapping conforms to `Category`'s declared fields. -/
def CategoryConformant (kvs : List (String × Json)) : Prop :=
  ReqStrOk kvs "name" ∧ ReqIntOk kvs "count"

/-- The mapping conforms to `CategoriesResponse`'s declared fields. -/
def CategoriesResponseConformant (kvs : List (String × Json)) : Prop :=
  CategoryListOk kvs "categories" ∧ ReqIntOk kvs "total"

/-- The mapping conforms to `TrendingResponse`'s declared fields. -/
def TrendingResponseConformant (kvs : List (String × Json)) : Prop :=
  SkillListOk kvs "skills" ∧ ReqIntOk kvs "limit"

/-! ## Helper lemmas -/

theorem except_bind_ok {α β : Type} (a : α) (f : α → Except ClientError β) :
    (Except.ok a >>= f) = f a := rfl

theorem except_bind_error {α β : Type} (e : ClientError) (f : α → Except ClientError β) :
    ((Except.error e : Except ClientError α) >>= f) = Except.error e := rfl

theorem bind_ok_inv {α β : Type} {x : Except ClientError α} {f : α → Except ClientError β}
    {b : β} (h : (x >>= f) = .ok b) : ∃ a, x = .ok a ∧ f a = .ok b := by
  cases x with
  | error e => rw [except_bind_error] at h; exact absurd h (by simp)
  | ok a => exact ⟨a, rfl, h⟩

/-- The result never is an HTTP-status error (it is a success or a
validation error). -/
def noHttpErr {α : Type} (x : Except ClientError α) : Prop :=
  ∀ c b, x ≠ .error (.httpStatus c b)

theorem noHttpErr_ok {α : Type} (a : α) : noHttpErr (Except.ok a) := by
  intro c b h
  exact Except.noConfusion h

theorem noHttpErr_validation {α : Type} (m : String) :
    noHttpErr (Except.error (ClientError.validation m) : Except ClientError α) := by
  intro c b h
  injection h with h'
  exact ClientError.noConfusion h'

theorem noHttpErr_bind {α β : Type} {x : Except ClientError α}
    {f : α → Except ClientError β} (hx : noHttpErr x) (hf : ∀ a, noHttpErr (f a)) :
    noHttpErr (x >>= f) := by
  cases x with
  | error e =>
      rw [except_bind_error]
      cases e with
      | httpStatus c b => exact absurd rfl (hx c b)
      | validation m => exact noHttpErr_validation m
  | ok a => rw [except_bind_ok]; exact hf a

theorem noHttpErr_cases {α : Type} {x : Except ClientError α} (hx : noHttpErr x) :
    (∃ a, x = .ok a) ∨ (∃ m, x = .error (.validation m)) := by
  cases x with
  | ok a => exact Or.inl ⟨a, rfl⟩
  | error e =>
      cases e with
      | httpStatus c b => exact absurd rfl (hx c b)
      | validation m => exact Or.inr ⟨m, rfl⟩

theorem getReqStr_noHttp (kvs : List (String × Json)) (k : String) :
    noHttpErr (getReqStr kvs k) := by
  unfold getReqStr
  split
  · exact noHttpErr_ok _
  · exact noHttpErr_validation _
  · exact noHttpErr_validation _

theorem getReqInt_noHttp (kvs : List (String × Json)) (k : String) :
    noHttpErr (getReqInt kvs k) := by
  unfold getReqInt
  split
  · split
    · exact noHttpErr_ok _
    · exact noHttpErr_validation _
  · exact noHttpErr_validation _

theorem getOptStr_noHttp (kvs : List (String × Json)) (k : String) :
    noHttpErr (getOptStr kvs k) := by
  unfold getOptStr
  split
  · exact noHttpErr_ok _
  · exact noHttpErr_ok _
  · exact noHttpErr_ok _
  · exact noHttpErr_validation _

theorem getOptInt_noHttp (kvs : List (String × Json)) (k : String) :
    noHttpErr (getOptInt kvs k) := by
  unfold getOptInt
  split
  · exact noHttpErr_ok _
  · exact noHttpErr_ok _
  · split
    · exact noHttpErr_ok _
    · exact noHttpErr_validation _

theorem getIntD_noHttp (kvs : List (String × Json)) (k : String) (d : Int) :
    noHttpErr (getIntD kvs k d) := by
  unfold getIntD
  split
  · exact noHttpErr_ok _
  · split
    · exact noHttpErr_ok _
    · exact noHttpErr_validation _

theorem getFloatD_noHttp (kvs : List (String × Json)) (k : String) (d : Rat) :
    noHttpErr (getFloatD kvs k d) := by
  unfold getFloatD
  split
  · exact noHttpErr_ok _
  · split
    · exact noHttpErr_ok _
    · exact noHttpErr_validation _

theorem asStrList_noHttp (xs : List Json) : noHttpErr (asStrList xs) := by
  induction xs with
  | nil => exact noHttpErr_ok _
  | cons j rest ih =>
      cases j with
      | jstr s =>
          show noHttpErr (asStrList rest >>= fun tl => Except.ok (s :: tl))
          exact noHttpErr_bind ih fun _ => noHttpErr_ok _
      | jnull => exact noHttpErr_validation _
      | jbool b => exact noHttpErr_validation _
      | jint n => exact noHttpErr_validation _
      | jfloat q => exact noHttpErr_validation _
      | jarr a => exact noHttpErr_validation _
      | jobj o => exact noHttpErr_validation _

theorem getOptStrList_noHttp (kvs : List (String × Json)) (k : String) :
    noHttpErr (getOptStrList kvs k) := by
  unfold getOptStrList
  split
  · exact noHttpErr_ok _
  · exact noHttpErr_ok _
  · exact noHttpErr_bind (asStrList_noHttp _) fun _ => noHttpErr_ok _
  · exact noHttpErr_validation _

theorem validateSkill_noHttp (kvs : List (String × Json)) :
    noHttpErr (validateSkill kvs) := by
  unfold validateSkill
  exact noHttpErr_bind (getReqStr_noHttp _ _) fun _ =>
    noHttpErr_bind (getOptStr_noHttp _ _) fun _ =>
    noHttpErr_bind (getReqStr_noHttp _ _) fun _ =>
    noHttpErr_bind (getOptStr_noHttp _ _) fun _ =>
    noHttpErr_bind (getOptStrList_noHttp _ _) fun _ =>
    noHttpErr_bind (getOptStr_noHttp _ _) fun _ =>
    noHttpErr_bind (getOptStr_noHttp _ _) fun _ =>
    noHttpErr_bind (getOptInt_noHttp _ _) fun _ =>
    noHttpErr_bind (getOptInt_noHttp _ _) fun _ => noHttpErr_ok _

theorem parseSkill_noHttp (j : Json) : noHttpErr (parseSkill j) := by
  cases j with
  | jobj kvs => exact validateSkill_noHttp kvs
  | jnull => exact noHttpErr_validation _
  | jbool b => exact noHttpErr_validation _
  | jint n => exact noHttpErr_validation _
  | jfloat q => exact noHttpErr_validation _
  | jstr s => exact noHttpErr_validation _
  | jarr a => exact noHttpErr_validation _

theorem parseSkillList_noHttp (xs : List Json) : noHttpErr (parseSkillList xs) := by
  induction xs with
  | nil => exact noHttpErr_ok _
  | cons j rest ih =>
      show noHttpErr (parseSkill j >>= fun sk => parseSkillList rest >>= fun tl =>
        Except.ok (sk :: tl))
      exact noHttpErr_bind (parseSkill_noHttp j) fun _ =>
        noHttpErr_bind ih fun _ => noHttpErr_ok _

theorem parseCategory_noHttp (j : Json) : noHttpErr (parseCategory j) := by
  cases j with
  | jobj kvs =>
      show noHttpErr (getReqStr kvs "name" >>= fun name =>
        getReqInt kvs "count" >>= fun count =>
          Except.ok ({ name := name, count := count } : Category))
      exact noHttpErr_bind (getReqStr_noHttp _ _) fun _ =>
        noHttpErr_bind (getReqInt_noHttp _ _) fun _ => noHttpErr_ok _
  | jnull => exact noHttpErr_validation _
  | jbool b => exact noHttpErr_validation _
  | jint n => exact noHttpErr_validation _
  | jfloat q => exact noHttpErr_validation _
  | jstr s => exact noHttpErr_validation _
  | jarr a => exact noHttpErr_validation _

theorem parseCategoryList_noHttp (xs : List Json) : noHttpErr (parseCategoryList xs) := by
  induction xs with
  | nil => exact noHttpErr_ok _
  | cons j rest ih =>
      show noHttpErr (parseCategory j >>= fun c => parseCategoryList rest >>= fun tl =>
        Except.ok (c :: tl))
      exact noHttpErr_bind (parseCategory_noHttp j) fun _ =>
        noHttpErr_bind ih fun _ => noHttpErr_ok _

theorem raiseForStatus_2xx {resp : HttpResponse} (h : is2xx resp.status = true) :
    raiseForStatus resp = .ok () := by
  unfold raiseForStatus
  rw [if_pos h]

theorem raiseForStatus_non2xx {resp : HttpResponse} (h : is2xx resp.status = false) :
    raiseForStatus resp = .error (.httpStatus resp.status resp.body) := by
  unfold raiseForStatus
  rw [if_neg (by simp [h])]

/-- Every client method starts with `raise_for_status()`: on a non-2xx
status the whole method fails with the HTTP-status error. -/
theorem opParse_non2xx {α : Type} (bodyParse : Json → Except ClientError α)
    {resp : HttpResponse} (h : is2xx resp.status = false) :
    (do raiseForStatus resp; bodyParse resp.body) =
      Except.error (.httpStatus resp.status resp.body) := by
  show (raiseForStatus resp >>= fun _ => bodyParse resp.body) = _
  rw [raiseForStatus_non2xx h, except_bind_error]

/-- On a 2xx status, `raise_for_status()` is a no-op and the method is
its body parser. -/
theorem opParse_2xx {α : Type} (bodyParse : Json → Except ClientError α)
    {resp : HttpResponse} (h : is2xx resp.status = true) :
    (do raiseForStatus resp; bodyParse resp.body) = bodyParse resp.body := by
  show (raiseForStatus resp >>= fun _ => bodyParse resp.body) = _
  rw [raiseForStatus_2xx h, except_bind_ok]

theorem healthBodyParse_noHttp (b : Json) : noHttpErr (healthBodyParse b) := by
  cases b with
  | jobj data =>
      show noHttpErr (getReqStr data "status" >>= fun status =>
        getReqStr data "version" >>= fun version =>
        getIntD data "skillCount" 0 >>= fun skill_count =>
        getIntD data "uptime" 0 >>= fun uptime =>
          Except.ok ({ status := status, version := version, skill_count := skill_count, uptime := uptime } : HealthResponse))
      exact noHttpErr_bind (getReqStr_noHttp _ _) fun _ =>
        noHttpErr_bind (getReqStr_noHttp _ _) fun _ =>
        noHttpErr_bind (getIntD_noHttp _ _ _) fun _ =>
        noHttpErr_bind (getIntD_noHttp _ _ _) fun _ => noHttpErr_ok _
  | jnull => exact noHttpErr_validation _
  | jbool x => exact noHttpErr_validation _
  | jint x => exact noHttpErr_validation _
  | jfloat x => exact noHttpErr_validation _
  | jstr x => exact noHttpErr_validation _
  | jarr x => exact noHttpErr_validation _

theorem getSkillListField_noHttp (kvs : List (String × Json)) (k : String) :
    noHttpErr (getSkillListField kvs k) := by
  unfold getSkillListField
  split
  · exact parseSkillList_noHttp _
  · exact noHttpErr_validation _
  · exact noHttpErr_validation _

theorem getCategoryListField_noHttp (kvs : List (String × Json)) (k : String) :
    noHttpErr (getCategoryListField kvs k) := by
  unfold getCategoryListField
  split
  · exact parseCategoryList_noHttp _
  · exact noHttpErr_validation _
  · exact noHttpErr_validation _

theorem searchBodyParse_noHttp (b : Json) : noHttpErr (searchBodyParse b) := by
  cases b with
  | jobj data =>
      show noHttpErr (getSkillListField data "skills" >>= fun skills =>
        getReqInt data "total" >>= fun total =>
        getReqStr data "query" >>= fun query =>
        getReqInt data "limit" >>= fun limit =>
          Except.ok ({ skills := skills, total := total, query := query, limit := limit } : SearchResponse))
      exact noHttpErr_bind (getSkillListField_noHttp _ _) fun _ =>
        noHttpErr_bind (getReqInt_noHttp _ _) fun _ =>
        noHttpErr_bind (getReqStr_noHttp _ _) fun _ =>
        noHttpErr_bind (getReqInt_noHttp _ _) fun _ => noHttpErr_ok _
  | jnull => exact noHttpErr_validation _
  | jbool x => exact noHttpErr_validation _
  | jint x => exact noHttpErr_validation _
  | jfloat x => exact noHttpErr_validation _
  | jstr x => exact noHttpErr_validation _
  | jarr x => exact noHttpErr_validation _

theorem trendingBodyParse_noHttp (b : Json) : noHttpErr (trendingBodyParse b) := by
  cases b with
  | jobj data => exact getSkillListField_noHttp data "skills"
  | jnull => exact noHttpErr_validation _
  | jbool x => exact noHttpErr_validation _
  | jint x => exact noHttpErr_validation _
  | jfloat x => exact noHttpErr_validation _
  | jstr x => exact noHttpErr_validation _
  | jarr x => exact noHttpErr_validation _

theorem categoriesBodyParse_noHttp (b : Json) : noHttpErr (categoriesBodyParse b) := by
  cases b with
  | jobj data => exact getCategoryListField_noHttp data "categories"
  | jnull => exact noHttpErr_validation _
  | jbool x => exact noHttpErr_validation _
  | jint x => exact noHttpErr_validation _
  | jfloat x => exact noHttpErr_validation _
  | jstr x => exact noHttpErr_validation _
  | jarr x => exact noHttpErr_validation _

theorem cacheStatsBodyParse_noHttp (b : Json) : noHttpErr (cacheStatsBodyParse b) := by
  cases b with
  | jobj data =>
      show noHttpErr (getReqInt data "hits" >>= fun hits =>
        getReqInt data "misses" >>= fun misses =>
        getReqInt data "size" >>= fun size =>
        getIntD data "maxSize" 0 >>= fun max_size =>
        getFloatD data "hitRate" 0 >>= fun hit_rate =>
          Except.ok ({ hits := hits, misses := misses, size := size, max_size := max_size, hit_rate := hit_rate } : CacheStats))
      exact noHttpErr_bind (getReqInt_noHttp _ _) fun _ =>
        noHttpErr_bind (getReqInt_noHttp _ _) fun _ =>
        noHttpErr_bind (getReqInt_noHttp _ _) fun _ =>
        noHttpErr_bind (getIntD_noHttp _ _ _) fun _ =>
        noHttpErr_bind (getFloatD_noHttp _ _ _) fun _ => noHttpErr_ok _
  | jnull => exact noHttpErr_validation _
  | jbool x => exact noHttpErr_validation _
  | jint x => exact noHttpErr_validation _
  | jfloat x => exact noHttpErr_validation _
  | jstr x => exact noHttpErr_validation _
  | jarr x => exact noHttpErr_validation _

/-- `[Skill(**s) for s in xs]` succeeds with `sks` exactly when the parses
succeed element-wise, in order. -/
theorem parseSkillList_ok_iff (xs : List Json) (sks : List Skill) :
    parseSkillList xs = .ok sks ↔
      List.Forall₂ (fun j sk => parseSkill j = .ok sk) xs sks := by
  induction xs generalizing sks with
  | nil =>
      constructor
      · intro h
        unfold parseSkillList at h
        injection h with h'
        subst h'
        exact List.Forall₂.nil
      · intro h
        cases h
        rfl
  | cons j rest ih =>
      constructor
      · intro h
        have h' : (parseSkill j >>= fun sk => parseSkillList rest >>= fun tl =>
            Except.ok (sk :: tl)) = .ok sks := h
        obtain ⟨sk, hsk, h2⟩ := bind_ok_inv h'
        obtain ⟨tl, htl, h3⟩ := bind_ok_inv h2
        injection h3 with h3'
        subst h3'
        exact List.Forall₂.cons hsk ((ih tl).mp htl)
      · intro h
        cases h with
        | cons hj htl =>
            show (parseSkill j >>= fun sk => parseSkillList rest >>= fun tl =>
              Except.ok (sk :: tl)) = _
            rw [hj, except_bind_ok, (ih _).mpr htl, except_bind_ok]

/-- `[Category(**c) for c in xs]` succeeds element-wise, in order. -/
theorem parseCategoryList_ok_iff (xs : List Json) (cs : List Category) :
    parseCategoryList xs = .ok cs ↔
      List.Forall₂ (fun j c => parseCategory j = .ok c) xs cs := by
  induction xs generalizing cs with
  | nil =>
      constructor
      · intro h
        unfold parseCategoryList at h
        injection h with h'
        subst h'
        exact List.Forall₂.nil
      · intro h
        cases h
        rfl
  | cons j rest ih =>
      constructor
      · intro h
        have h' : (parseCategory j >>= fun c => parseCategoryList rest >>= fun tl =>
            Except.ok (c :: tl)) = .ok cs := h
        obtain ⟨c, hc, h2⟩ := bind_ok_inv h'
        obtain ⟨tl, htl, h3⟩ := bind_ok_inv h2
        injection h3 with h3'
        subst h3'
        exact List.Forall₂.cons hc ((ih tl).mp htl)
      · intro h
        cases h with
        | cons hj htl =>
            show (parseCategory j >>= fun c => parseCategoryList rest >>= fun tl =>
              Except.ok (c :: tl)) = _
            rw [hj, except_bind_ok, (ih _).mpr htl, except_bind_ok]

theorem forall₂_mem_left {α β : Type} {R : α → β → Prop} {xs : List α} {ys : List β}
    (h : List.Forall₂ R xs ys) {x : α} (hx : x ∈ xs) : ∃ y ∈ ys, R x y := by
  induction h with
  | nil => cases hx
  | @cons a b l₁ l₂ hR htl ih =>
      cases hx with
      | head => exact ⟨b, List.mem_cons_self b l₂, hR⟩
      | tail _ hx' =>
          obtain ⟨y, hy, hR'⟩ := ih hx'
          exact ⟨y, List.mem_cons_of_mem b hy, hR'⟩

/-! ### Getter inversion and computation lemmas -/

theorem getReqStr_ok {kvs : List (String × Json)} {k : String} {s : String}
    (h : getReqStr kvs k = .ok s) : getField kvs k = some (Json.jstr s) := by
  unfold getReqStr at h
  cases hf : getField kvs k with
  | none => rw [hf] at h; exact absurd h (by simp)
  | some v =>
      rw [hf] at h
      cases v <;> simp_all

theorem getReqInt_ok {kvs : List (String × Json)} {k : String} {n : Int}
    (h : getReqInt kvs k = .ok n) : ReqIntOk kvs k := by
  unfold getReqInt at h
  split at h
  · rename_i v heq1
    split at h
    · rename_i m heq2
      exact ⟨v, m, heq1, heq2⟩
    · exact absurd h (by simp)
  · exact absurd h (by simp)

theorem getOptStr_ok {kvs : List (String × Json)} {k : String} {o : Option String}
    (h : getOptStr kvs k = .ok o) :
    getField kvs k = none ∨ getField kvs k = some Json.jnull ∨
      ∃ s, getField kvs k = some (Json.jstr s) := by
  cases hf : getField kvs k with
  | none => exact Or.inl rfl
  | some v =>
      unfold getOptStr at h
      rw [hf] at h
      cases v <;> simp_all

theorem getOptInt_ok {kvs : List (String × Json)} {k : String} {o : Option Int}
    (h : getOptInt kvs k = .ok o) : OptIntOk kvs k := by
  unfold getOptInt at h
  split at h
  · rename_i heq
    exact Or.inl heq
  · rename_i heq
    exact Or.inr (Or.inl heq)
  · rename_i v hnn heq1
    split at h
    · rename_i m heq2
      exact Or.inr (Or.inr ⟨v, m, heq1, heq2⟩)
    · exact absurd h (by simp)

theorem getIntD_ok {kvs : List (String × Json)} {k : String} {d n : Int}
    (h : getIntD kvs k d = .ok n) : IntDOk kvs k := by
  unfold getIntD at h
  split at h
  · rename_i heq
    exact Or.inl heq
  · rename_i v heq1
    split at h
    · rename_i m heq2
      exact Or.inr ⟨v, m, heq1, heq2⟩
    · exact absurd h (by simp)

theorem getFloatD_ok {kvs : List (String × Json)} {k : String} {d q : Rat}
    (h : getFloatD kvs k d = .ok q) : FloatDOk kvs k := by
  unfold getFloatD at h
  split at h
  · rename_i heq
    exact Or.inl heq
  · rename_i v heq1
    split at h
    · rename_i r heq2
      exact Or.inr ⟨v, r, heq1, heq2⟩
    · exact absurd h (by simp)

theorem asStrList_ok {xs : List Json} {ss : List String}
    (h : asStrList xs = .ok ss) : xs = ss.map Json.jstr := by
  induction xs generalizing ss with
  | nil =>
      unfold asStrList at h
      injection h with h'
      subst h'
      rfl
  | cons j rest ih =>
      cases j with
      | jstr s =>
          have h' : (asStrList rest >>= fun tl => Except.ok (s :: tl)) = .ok ss := h
          obtain ⟨tl, htl, h2⟩ := bind_ok_inv h'
          injection h2 with h2'
          subst h2'
          rw [List.map_cons, ih htl]
      | jnull => exact absurd h (by simp [asStrList])
      | jbool b => exact absurd h (by simp [asStrList])
      | jint n => exact absurd h (by simp [asStrList])
      | jfloat q => exact absurd h (by simp [asStrList])
      | jarr a => exact absurd h (by simp [asStrList])
      | jobj o => exact absurd h (by simp [asStrList])

theorem getOptStrList_ok {kvs : List (String × Json)} {k : String}
    {o : Option (List String)} (h : getOptStrList kvs k = .ok o) :
    getField kvs k = none ∨ getField kvs k = some Json.jnull ∨
      ∃ ss : List String, getField kvs k = some (Json.jarr (ss.map Json.jstr)) := by
  cases hf : getField kvs k with
  | none => exact Or.inl rfl
  | some v =>
      unfold getOptStrList at h
      rw [hf] at h
      cases v with
      | jnull => exact Or.inr (Or.inl rfl)
      | jarr xs =>
          obtain ⟨ss, hss, _⟩ := bind_ok_inv h
          refine Or.inr (Or.inr ⟨ss, ?_⟩)
          rw [asStrList_ok hss]
      | jbool b => exact absurd h (by simp)
      | jint n => exact absurd h (by simp)
      | jfloat q => exact absurd h (by simp)
      | jstr s => exact absurd h (by simp)
      | jobj oo => exact absurd h (by simp)

theorem getSkillListField_ok {kvs : List (String × Json)} {k : String}
    {sks : List Skill} (h : getSkillListField kvs k = .ok sks) :
    ∃ xs, getField kvs k = some (Json.jarr xs) ∧
      ∀ j ∈ xs, ∃ sk, parseSkill j = .ok sk := by
  unfold getSkillListField at h
  cases hf : getField kvs k with
  | none => rw [hf] at h; exact absurd h (by simp)
  | some v =>
      rw [hf] at h
      cases v with
      | jarr xs =>
          refine ⟨xs, rfl, fun j hj => ?_⟩
          obtain ⟨sk, _, hsk⟩ := forall₂_mem_left ((parseSkillList_ok_iff xs sks).mp h) hj
          exact ⟨sk, hsk⟩
      | jnull => exact absurd h (by simp)
      | jbool b => exact absurd h (by simp)
      | jint n => exact absurd h (by simp)
      | jfloat q => exact absurd h (by simp)
      | jstr s => exact absurd h (by simp)
      | jobj o => exact absurd h (by simp)

theorem getCategoryListField_ok {kvs : List (String × Json)} {k : String}
    {cs : List Category} (h : getCategoryListField kvs k = .ok cs) :
    ∃ xs, getField kvs k = some (Json.jarr xs) ∧
      ∀ j ∈ xs, ∃ c, parseCategory j = .ok c := by
  unfold getCategoryListField at h
  cases hf : getField kvs k with
  | none => rw [hf] at h; exact absurd h (by simp)
  | some v =>
      rw [hf] at h
      cases v with
      | jarr xs =>
          refine ⟨xs, rfl, fun j hj => ?_⟩
          obtain ⟨c, _, hc⟩ := forall₂_mem_left ((parseCategoryList_ok_iff xs cs).mp h) hj
          exact ⟨c, hc⟩
      | jnull => exact absurd h (by simp)
      | jbool b => exact absurd h (by simp)
      | jint n => exact absurd h (by simp)
      | jfloat q => exact absurd h (by simp)
      | jstr s => exact absurd h (by simp)
      | jobj o => exact absurd h (by simp)

theorem getOptStr_none {kvs : List (String × Json)} {k : String}
    (h : getField kvs k = none) : getOptStr kvs k = .ok none := by
  unfold getOptStr
  rw [h]

theorem getOptInt_none {kvs : List (String × Json)} {k : String}
    (h : getField kvs k = none) : getOptInt kvs k = .ok none := by
  unfold getOptInt
  rw [h]

theorem getOptStrList_none {kvs : List (String × Json)} {k : String}
    (h : getField kvs k = none) : getOptStrList kvs k = .ok none := by
  unfold getOptStrList
  rw [h]

theorem getIntD_none {kvs : List (String × Json)} {k : String} {d : Int}
    (h : getField kvs k = none) : getIntD kvs k d = .ok d := by
  unfold getIntD
  rw [h]

theorem getFloatD_none {kvs : List (String × Json)} {k : String} {d : Rat}
    (h : getField kvs k = none) : getFloatD kvs k d = .ok d := by
  unfold getFloatD
  rw [h]

/-! ### Per-model inversion of a successful construction -/

theorem validateSkill_ok_inv {kvs : List (String × Json)} {sk : Skill}
    (h : validateSkill kvs = .ok sk) :
    getReqStr kvs "name" = .ok sk.name ∧
    getOptStr kvs "description" = .ok sk.description ∧
    getReqStr kvs "source" = .ok sk.source ∧
    getOptStr kvs "repo" = .ok sk.repo ∧
    getOptStrList kvs "tags" = .ok sk.tags ∧
    getOptStr kvs "category" = .ok sk.category ∧
    getOptStr kvs "content" = .ok sk.content ∧
    getOptInt kvs "stars" = .ok sk.stars ∧
    getOptInt kvs "installs" = .ok sk.installs := by
  unfold validateSkill at h
  obtain ⟨name, h1, h⟩ := bind_ok_inv h
  obtain ⟨description, h2, h⟩ := bind_ok_inv h
  obtain ⟨source, h3, h⟩ := bind_ok_inv h
  obtain ⟨repo, h4, h⟩ := bind_ok_inv h
  obtain ⟨tags, h5, h⟩ := bind_ok_inv h
  obtain ⟨category, h6, h⟩ := bind_ok_inv h
  obtain ⟨content, h7, h⟩ := bind_ok_inv h
  obtain ⟨stars, h8, h⟩ := bind_ok_inv h
  obtain ⟨installs, h9, h⟩ := bind_ok_inv h
  injection h with h'
  subst h'
  exact ⟨h1, h2, h3, h4, h5, h6, h7, h8, h9⟩

theorem validateSearchResponse_ok_inv {kvs : List (String × Json)} {r : SearchResponse}
    (h : validateSearchResponse kvs = .ok r) :
    getSkillListField kvs "skills" = .ok r.skills ∧
    getReqInt kvs "total" = .ok r.total ∧
    getReqStr kvs "query" = .ok r.query ∧
    getReqInt kvs "limit" = .ok r.limit := by
  unfold validateSearchResponse at h
  obtain ⟨skills, h1, h⟩ := bind_ok_inv h
  obtain ⟨total, h2, h⟩ := bind_ok_inv h
  obtain ⟨query, h3, h⟩ := bind_ok_inv h
  obtain ⟨limit, h4, h⟩ := bind_ok_inv h
  injection h with h'
  subst h'
  exact ⟨h1, h2, h3, h4⟩

theorem validateHealthResponse_ok_inv {kvs : List (String × Json)} {r : HealthResponse}
    (h : validateHealthResponse kvs = .ok r) :
    getReqStr kvs "status" = .ok r.status ∧
    getReqStr kvs "version" = .ok r.version ∧
    getIntD kvs "skill_count" 0 = .ok r.skill_count ∧
    getIntD kvs "uptime" 0 = .ok r.uptime := by
  unfold validateHealthResponse at h
  obtain ⟨status, h1, h⟩ := bind_ok_inv h
  obtain ⟨version, h2, h⟩ := bind_ok_inv h
  obtain ⟨skill_count, h3, h⟩ := bind_ok_inv h
  obtain ⟨uptime, h4, h⟩ := bind_ok_inv h
  injection h with h'
  subst h'
  exact ⟨h1, h2, h3, h4⟩

theorem validateCacheStats_ok_inv {kvs : List (String × Json)} {r : CacheStats}
    (h : validateCacheStats kvs = .ok r) :
    getReqInt kvs "hits" = .ok r.hits ∧
    getReqInt kvs "misses" = .ok r.misses ∧
    getReqInt kvs "size" = .ok r.size ∧
    getIntD kvs "max_size" 0 = .ok r.max_size ∧
    getFloatD kvs "hit_rate" 0 = .ok r.hit_rate := by
  unfold validateCacheStats at h
  obtain ⟨hits, h1, h⟩ := bind_ok_inv h
  obtain ⟨misses, h2, h⟩ := bind_ok_inv h
  obtain ⟨size, h3, h⟩ := bind_ok_inv h
  obtain ⟨max_size, h4, h⟩ := bind_ok_inv h
  obtain ⟨hit_rate, h5, h⟩ := bind_ok_inv h
  injection h with h'
  subst h'
  exact ⟨h1, h2, h3, h4, h5⟩

theorem validateCategory_ok_inv {kvs : List (String × Json)} {c : Category}
    (h : validateCategory kvs = .ok c) :
    getReqStr kvs "name" = .ok c.name ∧ getReqInt kvs "count" = .ok c.count := by
  unfold validateCategory at h
  obtain ⟨name, h1, h⟩ := bind_ok_inv h
  obtain ⟨count, h2, h⟩ := bind_ok_inv h
  injection h with h'
  subst h'
  exact ⟨h1, h2⟩

theorem validateCategoriesResponse_ok_inv {kvs : List (String × Json)}
    {r : CategoriesResponse} (h : validateCategoriesResponse kvs = .ok r) :
    getCategoryListField kvs "categories" = .ok r.categories ∧
    getReqInt kvs "total" = .ok r.total := by
  unfold validateCategoriesResponse at h
  obtain ⟨categories, h1, h⟩ := bind_ok_inv h
  obtain ⟨total, h2, h⟩ := bind_ok_inv h
  injection h with h'
  subst h'
  exact ⟨h1, h2⟩

theorem validateTrendingResponse_ok_inv {kvs : List (String × Json)}
    {r : TrendingResponse} (h : validateTrendingResponse kvs = .ok r) :
    getSkillListField kvs "skills" = .ok r.skills ∧
    getReqInt kvs "limit" = .ok r.limit := by
  unfold validateTrendingResponse at h
  obtain ⟨skills, h1, h⟩ := bind_ok_inv h
  obtain ⟨limit, h2, h⟩ := bind_ok_inv h
  injection h with h'
  subst h'
  exact ⟨h1, h2⟩

/-! ### Success implies conformance -/

theorem skillConformant_of_ok {kvs : List (String × Json)} {sk : Skill}
    (h : validateSkill kvs = .ok sk) : SkillConformant kvs := by
  obtain ⟨h1, h2, h3, h4, h5, h6, h7, h8, h9⟩ := validateSkill_ok_inv h
  exact ⟨⟨_, getReqStr_ok h1⟩, getOptStr_ok h2, ⟨_, getReqStr_ok h3⟩,
    getOptStr_ok h4, getOptStrList_ok h5, getOptStr_ok h6, getOptStr_ok h7,
    getOptInt_ok h8, getOptInt_ok h9⟩

theorem searchResponseConformant_of_ok {kvs : List (String × Json)} {r : SearchResponse}
    (h : validateSearchResponse kvs = .ok r) : SearchResponseConformant kvs := by
  obtain ⟨h1, h2, h3, h4⟩ := validateSearchResponse_ok_inv h
  exact ⟨getSkillListField_ok h1, getReqInt_ok h2, ⟨_, getReqStr_ok h3⟩,
    getReqInt_ok h4⟩

theorem healthResponseConformant_of_ok {kvs : List (String × Json)} {r : HealthResponse}
    (h : validateHealthResponse kvs = .ok r) : HealthResponseConformant kvs := by
  obtain ⟨h1, h2, h3, h4⟩ := validateHealthResponse_ok_inv h
  exact ⟨⟨_, getReqStr_ok h1⟩, ⟨_, getReqStr_ok h2⟩, getIntD_ok h3, getIntD_ok h4⟩

theorem cacheStatsConformant_of_ok {kvs : List (String × Json)} {r : CacheStats}
    (h : validateCacheStats kvs = .ok r) : CacheStatsConformant kvs := by
  obtain ⟨h1, h2, h3, h4, h5⟩ := validateCacheStats_ok_inv h
  exact ⟨getReqInt_ok h1, getReqInt_ok h2, getReqInt_ok h3,
    getIntD_ok h4, getFloatD_ok h5⟩

theorem categoryConformant_of_ok {kvs : List (String × Json)} {c : Category}
    (h : validateCategory kvs = .ok c) : CategoryConformant kvs := by
  obtain ⟨h1, h2⟩ := validateCategory_ok_inv h
  exact ⟨⟨_, getReqStr_ok h1⟩, getReqInt_ok h2⟩

theorem categoriesResponseConformant_of_ok {kvs : List (String × Json)}
    {r : CategoriesResponse} (h : validateCategoriesResponse kvs = .ok r) :
    CategoriesResponseConformant kvs := by
  obtain ⟨h1, h2⟩ := validateCategoriesResponse_ok_inv h
  exact ⟨getCategoryListField_ok h1, getReqInt_ok h2⟩

theorem trendingResponseConformant_of_ok {kvs : List (String × Json)}
    {r : TrendingResponse} (h : validateTrendingResponse kvs = .ok r) :
    TrendingResponseConformant kvs := by
  obtain ⟨h1, h2⟩ := validateTrendingResponse_ok_inv h
  exact ⟨getSkillListField_ok h1, getReqInt_ok h2⟩

/-! ### The remaining validators never produce HTTP-status errors -/

theorem validateSearchResponse_noHttp (kvs : List (String × Json)) :
    noHttpErr (validateSearchResponse kvs) := by
  unfold validateSearchResponse
  exact noHttpErr_bind (getSkillListField_noHttp _ _) fun _ =>
    noHttpErr_bind (getReqInt_noHttp _ _) fun _ =>
    noHttpErr_bind (getReqStr_noHttp _ _) fun _ =>
    noHttpErr_bind (getReqInt_noHttp _ _) fun _ => noHttpErr_ok _

theorem validateHealthResponse_noHttp (kvs : List (String × Json)) :
    noHttpErr (validateHealthResponse kvs) := by
  unfold validateHealthResponse
  exact noHttpErr_bind (getReqStr_noHttp _ _) fun _ =>
    noHttpErr_bind (getReqStr_noHttp _ _) fun _ =>
    noHttpErr_bind (getIntD_noHttp _ _ _) fun _ =>
    noHttpErr_bind (getIntD_noHttp _ _ _) fun _ => noHttpErr_ok _

theorem validateCacheStats_noHttp (kvs : List (String × Json)) :
    noHttpErr (validateCacheStats kvs) := by
  unfold validateCacheStats
  exact noHttpErr_bind (getReqInt_noHttp _ _) fun _ =>
    noHttpErr_bind (getReqInt_noHttp _ _) fun _ =>
    noHttpErr_bind (getReqInt_noHttp _ _) fun _ =>
    noHttpErr_bind (getIntD_noHttp _ _ _) fun _ =>
    noHttpErr_bind (getFloatD_noHttp _ _ _) fun _ => noHttpErr_ok _

theorem validateCategory_noHttp (kvs : List (String × Json)) :
    noHttpErr (validateCategory kvs) := by
  unfold validateCategory
  exact noHttpErr_bind (getReqStr_noHttp _ _) fun _ =>
    noHttpErr_bind (getReqInt_noHttp _ _) fun _ => noHttpErr_ok _

theorem validateCategoriesResponse_noHttp (kvs : List (String × Json)) :
    noHttpErr (validateCategoriesResponse kvs) := by
  unfold validateCategoriesResponse
  exact noHttpErr_bind (getCategoryListField_noHttp _ _) fun _ =>
    noHttpErr_bind (getReqInt_noHttp _ _) fun _ => noHttpErr_ok _

theorem validateTrendingResponse_noHttp (kvs : List (String × Json)) :
    noHttpErr (validateTrendingResponse kvs) := by
  unfold validateTrendingResponse
  exact noHttpErr_bind (getSkillListField_noHttp _ _) fun _ =>
    noHttpErr_bind (getReqInt_noHttp _ _) fun _ => noHttpErr_ok _

/-! ### Non-conformant input fails with a validation error -/

theorem validateSkill_not_conformant {kvs : List (String × Json)}
    (h : ¬ SkillConformant kvs) :
    ∃ m, validateSkill kvs = .error (.validation m) := by
  rcases noHttpErr_cases (validateSkill_noHttp kvs) with ⟨sk, hok⟩ | hv
  · exact absurd (skillConformant_of_ok hok) h
  · exact hv

theorem validateSearchResponse_not_conformant {kvs : List (String × Json)}
    (h : ¬ SearchResponseConformant kvs) :
    ∃ m, validateSearchResponse kvs = .error (.validation m) := by
  rcases noHttpErr_cases (validateSearchResponse_noHttp kvs) with ⟨r, hok⟩ | hv
  · exact absurd (searchResponseConformant_of_ok hok) h
  · exact hv

theorem validateHealthResponse_not_conformant {kvs : List (String × Json)}
    (h : ¬ HealthResponseConformant kvs) :
    ∃ m, validateHealthResponse kvs = .error (.validation m) := by
  rcases noHttpErr_cases (validateHealthResponse_noHttp kvs) with ⟨r, hok⟩ | hv
  · exact absurd (healthResponseConformant_of_ok hok) h
  · exact hv

theorem validateCacheStats_not_conformant {kvs : List (String × Json)}
    (h : ¬ CacheStatsConformant kvs) :
    ∃ m, validateCacheStats kvs = .error (.validation m) := by
  rcases noHttpErr_cases (validateCacheStats_noHttp kvs) with ⟨r, hok⟩ | hv
  · exact absurd (cacheStatsConformant_of_ok hok) h
  · exact hv

theorem validateCategory_not_conformant {kvs : List (String × Json)}
    (h : ¬ CategoryConformant kvs) :
    ∃ m, validateCategory kvs = .error (.validation m) := by
  rcases noHttpErr_cases (validateCategory_noHttp kvs) with ⟨c, hok⟩ | hv
  · exact absurd (categoryConformant_of_ok hok) h
  · exact hv

theorem validateCategoriesResponse_not_conformant {kvs : List (String × Json)}
    (h : ¬ CategoriesResponseConformant kvs) :
    ∃ m, validateCategoriesResponse kvs = .error (.validation m) := by
  rcases noHttpErr_cases (validateCategoriesResponse_noHttp kvs) with ⟨r, hok⟩ | hv
  · exact absurd (categoriesResponseConformant_of_ok hok) h
  · exact hv

theorem validateTrendingResponse_not_conformant {kvs : List (String × Json)}
    (h : ¬ TrendingResponseConformant kvs) :
    ∃ m, validateTrendingResponse kvs = .error (.validation m) := by
  rcases noHttpErr_cases (validateTrendingResponse_noHttp kvs) with ⟨r, hok⟩ | hv
  · exact absurd (trendingResponseConformant_of_ok hok) h
  · exact hv

/-! ### Absent optional fields take their defaults -/

theorem validateSkill_defaults {kvs : List (String × Json)} {sk : Skill}
    (h : validateSkill kvs = .ok sk) :
    (getField kvs "description" = none → sk.description = none) ∧
    (getField kvs "repo" = none → sk.repo = none) ∧
    (getField kvs "tags" = none → sk.tags = none) ∧
    (getField kvs "category" = none → sk.category = none) ∧
    (getField kvs "content" = none → sk.content = none) ∧
    (getField kvs "stars" = none → sk.stars = none) ∧
    (getField kvs "installs" = none → sk.installs = none) := by
  obtain ⟨_, h2, _, h4, h5, h6, h7, h8, h9⟩ := validateSkill_ok_inv h
  refine ⟨fun ha => ?_, fun ha => ?_, fun ha => ?_, fun ha => ?_, fun ha => ?_,
    fun ha => ?_, fun ha => ?_⟩
  · have := (getOptStr_none ha).symm.trans h2
    injection this with h'
    exact h'.symm
  · have := (getOptStr_none ha).symm.trans h4
    injection this with h'
    exact h'.symm
  · have := (getOptStrList_none ha).symm.trans h5
    injection this with h'
    exact h'.symm
  · have := (getOptStr_none ha).symm.trans h6
    injection this with h'
    exact h'.symm
  · have := (getOptStr_none ha).symm.trans h7
    injection this with h'
    exact h'.symm
  · have := (getOptInt_none ha).symm.trans h8
    injection this with h'
    exact h'.symm
  · have := (getOptInt_none ha).symm.trans h9
    injection this with h'
    exact h'.symm

theorem validateHealthResponse_defaults {kvs : List (String × Json)} {r : HealthResponse}
    (h : validateHealthResponse kvs = .ok r) :
    (getField kvs "skill_count" = none → r.skill_count = 0) ∧
    (getField kvs "uptime" = none → r.uptime = 0) := by
  obtain ⟨_, _, h3, h4⟩ := validateHealthResponse_ok_inv h
  refine ⟨fun ha => ?_, fun ha => ?_⟩
  · have := (getIntD_none ha).symm.trans h3
    injection this with h'
    exact h'.symm
  · have := (getIntD_none ha).symm.trans h4
    injection this with h'
    exact h'.symm

theorem validateCacheStats_defaults {kvs : List (String × Json)} {r : CacheStats}
    (h : validateCacheStats kvs = .ok r) :
    (getField kvs "max_size" = none → r.max_size = 0) ∧
    (getField kvs "hit_rate" = none → r.hit_rate = 0) := by
  obtain ⟨_, _, _, h4, h5⟩ := validateCacheStats_ok_inv h
  refine ⟨fun ha => ?_, fun ha => ?_⟩
  · have := (getIntD_none ha).symm.trans h4
    injection this with h'
    exact h'.symm
  · have := (getFloatD_none ha).symm.trans h5
    injection this with h'
    exact h'.symm

/-! ### Percent-encoding lemmas -/

theorem charOfNat_ne_slash {x : Nat} (hx : x ≠ 47) : Char.ofNat x ≠ '/' := by
  intro h
  by_cases hv : x.isValidChar
  · have ht : (Char.ofNat x).toNat = x := by
      rw [Char.ofNat, dif_pos hv]
      rfl
    rw [h] at ht
    exact hx ht.symm
  · have ht : (Char.ofNat x).toNat = 0 := by
      rw [Char.ofNat, dif_neg hv]
      rfl
    rw [h] at ht
    exact absurd ht (by decide)

theorem hexDigit_ne_slash (n : Nat) : hexDigit n ≠ '/' := by
  unfold hexDigit
  split
  · exact charOfNat_ne_slash (by omega)
  · exact charOfNat_ne_slash (by omega)

theorem slash_not_mem_quoteByteChars (b : Nat) : '/' ∉ quoteByteChars b := by
  unfold quoteByteChars
  split
  · rename_i hsafe
    intro hm
    have h := List.mem_singleton.mp hm
    have hb : b ≠ 47 := by
      intro hb47
      subst hb47
      exact absurd hsafe (by decide)
    exact charOfNat_ne_slash hb h.symm
  · intro hm
    simp only [List.mem_cons, List.not_mem_nil, or_false] at hm
    rcases hm with h | h | h
    · exact absurd h (by decide)
    · exact hexDigit_ne_slash _ h.symm
    · exact hexDigit_ne_slash _ h.symm

/-- The percent-encoded form of any string contains no `/` character: the
slash in `source` can never produce a path separator. -/
theorem slash_not_mem_pyQuoteChars (s : String) : '/' ∉ pyQuoteChars s := by
  unfold pyQuoteChars
  intro hm
  rcases List.mem_flatMap.mp hm with ⟨b, _, hb⟩
  exact slash_not_mem_quoteByteChars b hb

/-! ### Session lifecycle lemmas -/

theorem getClient_none {s : ClientState} (h : s.handle = none) :
    getClient s = (s.nextId, { handle := some s.nextId, nextId := s.nextId + 1 }) := by
  unfold getClient
  rw [h]

theorem getClient_some {s : ClientState} {id : Nat} (h : s.handle = some id) :
    getClient s = (id, s) := by
  unfold getClient
  rw [h]

theorem close_handle_none (s : ClientState) : (close s).handle = none := by
  unfold close
  cases h : s.handle <;> simp [h]

theorem aexit_eq_close (s : ClientState) : aexit s = close s := rfl

/-- Reachable states allocate monotonically: any held session id is below
the allocation counter, so a session created after a close is fresh. -/
theorem reachable_handle_lt {s : ClientState} (h : Reachable s) :
    ∀ id, s.handle = some id → id < s.nextId := by
  induction h with
  | init => intro id hid; cases hid
  | @step t t' _ hst ih =>
      cases hst with
      | apiCall =>
          intro id hid
          cases ht : t.handle with
          | some j =>
              rw [getClient_some ht] at hid ⊢
              exact ih id hid
          | none =>
              rw [getClient_none ht] at hid ⊢
              injection hid with h'
              show id < t.nextId + 1
              omega
      | enter =>
          intro id hid
          injection hid with h'
          simp only [aenter]
          omega
      | exitScope =>
          intro id hid
          rw [aexit_eq_close, close_handle_none] at hid
          cases hid
      | closeCall =>
          intro id hid
          rw [close_handle_none t] at hid
          cases hid

/-- Full characterisation of the `filters` dict built by
`search_with_filters`. -/
theorem swfFilters_spec (t : Option (List String)) (c s : Option String) :
    (swfFilters t c s ≠ [] ↔
      pyTruthyList t = true ∨ pyTruthyStr c = true ∨ pyTruthyStr s = true) ∧
    (∀ ts, t = some ts → ts ≠ [] →
      getField (swfFilters t c s) "tags" = some (Json.jarr (ts.map Json.jstr))) ∧
    (pyTruthyList t = false → getField (swfFilters t c s) "tags" = none) ∧
    (∀ cv, c = some cv → cv ≠ "" →
      getField (swfFilters t c s) "category" = some (Json.jstr cv)) ∧
    (pyTruthyStr c = false → getField (swfFilters t c s) "category" = none) ∧
    (∀ sv, s = some sv → sv ≠ "" →
      getField (swfFilters t c s) "source" = some (Json.jstr sv)) ∧
    (pyTruthyStr s = false → getField (swfFilters t c s) "source" = none) ∧
    (swfFilters t c s).map Prod.fst =
      (if pyTruthyList t then ["tags"] else []) ++
      (if pyTruthyStr c then ["category"] else []) ++
      (if pyTruthyStr s then ["source"] else []) := by
  rcases t with _ | ⟨_ | ⟨t0, ts⟩⟩ <;> rcases c with _ | cv <;> rcases s with _ | sv <;>
    (simp only [swfFilters, pyTruthyList, pyTruthyStr]
     split_ifs <;> simp_all [getField, List.lookup])

theorem getReqStr_of_field {kvs : List (String × Json)} {k s : String}
    (h : getField kvs k = some (Json.jstr s)) : getReqStr kvs k = .ok s := by
  unfold getReqStr
  rw [h]

theorem getReqInt_of_field {kvs : List (String × Json)} {k : String} {n : Int}
    (h : getField kvs k = some (Json.jint n)) : getReqInt kvs k = .ok n := by
  unfold getReqInt
  rw [h]
  rfl

theorem getIntD_of_field {kvs : List (String × Json)} {k : String} {n d : Int}
    (h : getField kvs k = some (Json.jint n)) : getIntD kvs k d = .ok n := by
  unfold getIntD
  rw [h]
  rfl

theorem getFloatD_of_field {kvs : List (String × Json)} {k : String} {q d : Rat}
    (h : getField kvs k = some (Json.jfloat q)) : getFloatD kvs k d = .ok q := by
  unfold getFloatD
  rw [h]
  rfl

theorem close_none {s : ClientState} (h : s.handle = none) : close s = s := by
  unfold close
  rw [h]

theorem close_some {s : ClientState} {id : Nat} (h : s.handle = some id) :
    close s = { handle := none, nextId := s.nextId } := by
  unfold close
  rw [h]

theorem healthBodyParse_obj (data : List (String × Json)) :
    healthBodyParse (Json.jobj data) =
      (getReqStr data "status" >>= fun status =>
       getReqStr data "version" >>= fun version =>
       getIntD data "skillCount" 0 >>= fun skill_count =>
       getIntD data "uptime" 0 >>= fun uptime =>
         Except.ok ({ status := status, version := version, skill_count := skill_count, uptime := uptime } : HealthResponse)) := rfl

theorem cacheStatsBodyParse_obj (data : List (String × Json)) :
    cacheStatsBodyParse (Json.jobj data) =
      (getReqInt data "hits" >>= fun hits =>
       getReqInt data "misses" >>= fun misses =>
       getReqInt data "size" >>= fun size =>
       getIntD data "maxSize" 0 >>= fun max_size =>
       getFloatD data "hitRate" 0 >>= fun hit_rate =>
         Except.ok ({ hits := hits, misses := misses, size := size, max_size := max_size, hit_rate := hit_rate } : CacheStats)) := rfl

theorem trendingBodyParse_obj (data : List (String × Json)) :
    trendingBodyParse (Json.jobj data) = getSkillListField data "skills" := rfl

theorem categoriesBodyParse_obj (data : List (String × Json)) :
    categoriesBodyParse (Json.jobj data) = getCategoryListField data "categories" := rfl

/-- The 2xx body handling shared by `search` and `search_with_filters` is
the pydantic construction of `SearchResponse` from the body object. -/
theorem searchBodyParse_obj (data : List (String × Json)) :
    searchBodyParse (Json.jobj data) = validateSearchResponse data := rfl

/-! ## Claim theorems -/

/-- Claim C2: for every `source` and `skill_id`, `get_skill` issues a GET whose
path is `/skills/` followed by the two arguments each percent-encoded with
an empty safe set (so `/` itself is encoded and can never produce a path
separator); in particular `get_skill("owner/repo", "react-perf")` requests
`/skills/owner%2Frepo/react-perf`; and on a 2xx response the body is
parsed into a single `Skill`. -/
theorem getSkill_request_spec :
    (∀ source skillId : String, getSkillRequest source skillId =
      { method := "GET",
        path := "/skills/" ++ pyQuote source ++ "/" ++ pyQuote skillId,
        params := [], jsonBody := none }) ∧
    (∀ s : String, '/' ∉ pyQuoteChars s) ∧
    (getSkillRequest "owner/repo" "react-perf").path =
      "/skills/owner%2Frepo/react-perf" ∧
    (∀ resp : HttpResponse, is2xx resp.status = true →
      getSkillParse resp = parseSkill resp.body) := by
  refine ⟨fun _ _ => rfl, slash_not_mem_pyQuoteChars, by decide, fun resp h => ?_⟩
  exact opParse_2xx parseSkill h

/-- Witness for C2 at a concrete 2xx response. -/
theorem getSkill_request_spec_witness :
    is2xx 200 = true ∧
    getSkillParse ⟨200, Json.jobj [("name", Json.jstr "react-perf"),
        ("source", Json.jstr "owner/repo")]⟩ =
      parseSkill (Json.jobj [("name", Json.jstr "react-perf"),
        ("source", Json.jstr "owner/repo")]) :=
  ⟨by decide, getSkill_request_spec.2.2.2 _ (by decide)⟩

/-- Claim C3: `search_with_filters` issues a POST to `/search` whose JSON body
has exactly the keys `query`, `limit`, `include_content`, plus a nested
`filters` object present iff at least one of `tags`, `category`, `source`
is non-empty/non-null (Python truthiness), containing exactly the truthy
ones. -/
theorem searchWithFilters_request_spec (query : String) (limit : Int) (ic : Bool)
    (t : Option (List String)) (c s : Option String) :
    searchWithFiltersRequest query limit ic t c s =
      { method := "POST", path := "/search", params := [],
        jsonBody := some (Json.jobj
          ([("query", Json.jstr query), ("limit", Json.jint limit),
            ("include_content", Json.jbool ic)] ++
           (if (swfFilters t c s).isEmpty then []
            else [("filters", Json.jobj (swfFilters t c s))]))) } ∧
    (swfFilters t c s ≠ [] ↔
      pyTruthyList t = true ∨ pyTruthyStr c = true ∨ pyTruthyStr s = true) ∧
    (∀ ts, t = some ts → ts ≠ [] →
      getField (swfFilters t c s) "tags" = some (Json.jarr (ts.map Json.jstr))) ∧
    (pyTruthyList t = false → getField (swfFilters t c s) "tags" = none) ∧
    (∀ cv, c = some cv → cv ≠ "" →
      getField (swfFilters t c s) "category" = some (Json.jstr cv)) ∧
    (pyTruthyStr c = false → getField (swfFilters t c s) "category" = none) ∧
    (∀ sv, s = some sv → sv ≠ "" →
      getField (swfFilters t c s) "source" = some (Json.jstr sv)) ∧
    (pyTruthyStr s = false → getField (swfFilters t c s) "source" = none) ∧
    (swfFilters t c s).map Prod.fst =
      (if pyTruthyList t then ["tags"] else []) ++
      (if pyTruthyStr c then ["category"] else []) ++
      (if pyTruthyStr s then ["source"] else []) :=
  ⟨rfl, swfFilters_spec t c s⟩

/-- Witness for C3: `search_with_filters("auth", tags=["nextjs"])` has
`filters.tags == ["nextjs"]` and no `filters.category`/`filters.source`. -/
theorem searchWithFilters_request_spec_witness :
    (["nextjs"] : List String) ≠ [] ∧
    getField (swfFilters (some ["nextjs"]) none none) "tags" =
      some (Json.jarr [Json.jstr "nextjs"]) ∧
    getField (swfFilters (some ["nextjs"]) none none) "category" = none ∧
    getField (swfFilters (some ["nextjs"]) none none) "source" = none := by
  refine ⟨by decide, ?_, ?_, ?_⟩
  · exact (searchWithFilters_request_spec "auth" 20 false (some ["nextjs"])
      none none).2.2.1 ["nextjs"] rfl (by decide)
  · exact (searchWithFilters_request_spec "auth" 20 false (some ["nextjs"])
      none none).2.2.2.2.2.1 rfl
  · exact (searchWithFilters_request_spec "auth" 20 false (some ["nextjs"])
      none none).2.2.2.2.2.2.2.1 rfl

/-- Claim C8 (counterexample): the data-model records are not immutable —
`models.py` declares no `frozen=True`, pydantic's default permits
attribute assignment, and assigning `name` observably changes a concrete
record. -/
theorem skill_mutable_counterexample :
    Skill.setName exampleSkill "changed" ≠ exampleSkill ∧
    (Skill.setName exampleSkill "changed").name ≠ exampleSkill.name := by
  exact ⟨by decide, by decide⟩

/-- Claim C8 (amended): records validate on construction, but after
construction they are mutable: field assignment is permitted, takes
effect, and leaves the other fields unchanged. -/
theorem skill_assignment_spec (sk : Skill) (v : String) :
    (Skill.setName sk v).name = v ∧
    (Skill.setName sk v).source = sk.source ∧
    (Skill.setName sk v).description = sk.description ∧
    (Skill.setName sk v).tags = sk.tags :=
  ⟨rfl, rfl, rfl, rfl⟩

/-- Claim C9: the session handle starts absent; `_get_client` creates it lazily
when absent and reuses it unchanged when present; scope exit and `close()`
leave the handle absent; after a `close()` the next `_get_client` creates
a session distinct from the closed one (fresh); and the client holds at
most one session at any time. -/
theorem session_lifecycle_spec :
    initState.handle = none ∧
    (∀ s : ClientState, s.handle = none →
      getClient s = (s.nextId, { handle := some s.nextId, nextId := s.nextId + 1 })) ∧
    (∀ (s : ClientState) (id : Nat), s.handle = some id → getClient s = (id, s)) ∧
    (∀ s : ClientState, (aexit s).handle = none) ∧
    (∀ s : ClientState, (close s).handle = none) ∧
    (∀ (s : ClientState) (id : Nat), Reachable s → s.handle = some id →
      (getClient (close s)).2.handle = some ((getClient (close s)).1) ∧
      (getClient (close s)).1 ≠ id) ∧
    (∀ s : ClientState, (heldSessions s).length ≤ 1) := by
  refine ⟨rfl, fun s h => getClient_none h, fun s id h => getClient_some h,
    fun s => by rw [aexit_eq_close]; exact close_handle_none s,
    close_handle_none, fun s id hr h => ?_, fun s => ?_⟩
  · have hlt := reachable_handle_lt hr id h
    rw [close_some h, getClient_none rfl]
    refine ⟨rfl, ?_⟩
    show s.nextId ≠ id
    omega
  · unfold heldSessions
    cases s.handle <;> simp

/-- Witness for C9: enter a scope (creating session 0), then close; the
next lazily created session is not session 0. -/
theorem session_lifecycle_spec_witness :
    initState.handle = none ∧
    Reachable (aenter initState) ∧
    (aenter initState).handle = some 0 ∧
    (getClient (close (aenter initState))).1 ≠ 0 := by
  refine ⟨rfl, Reachable.step Reachable.init (Step.enter initState), rfl, ?_⟩
  exact (session_lifecycle_spec.2.2.2.2.2.1 (aenter initState) 0
    (Reachable.step Reachable.init (Step.enter initState)) rfl).2

/-- Claim C10: `close()` (and scope exit, whose body is identical) is total and
idempotent: on a handleless state it is a no-op, it always leaves the
handle absent, and closing twice equals closing once. -/
theorem close_idempotent_spec (s : ClientState) :
    (s.handle = none → close s = s) ∧
    (close s).handle = none ∧
    close (close s) = close s ∧
    aexit s = close s := by
  refine ⟨close_none, close_handle_none s, ?_, aexit_eq_close s⟩
  cases h : s.handle with
  | none => rw [close_none h, close_none h]
  | some id => rw [close_some h, close_none rfl]

/-- Witness for C10 at the freshly constructed client state. -/
theorem close_idempotent_spec_witness :
    initState.handle = none ∧ close initState = initState :=
  ⟨rfl, (close_idempotent_spec initState).1 rfl⟩

/-- Claim C4: `health()` maps `skillCount`→`skill_count` and passes `uptime`
through, and `cache_stats()` maps `maxSize`→`max_size` and
`hitRate`→`hit_rate`; each of these fields independently defaults (to 0,
resp. 0.0) when its key is absent and takes the supplied value when
present, covering every present/absent combination. -/
theorem health_cacheStats_mapping_spec :
    (∀ (data : List (String × Json)) (st v : String) (sc up : Int)
        (resp : HttpResponse),
      is2xx resp.status = true → resp.body = Json.jobj data →
      getField data "status" = some (Json.jstr st) →
      getField data "version" = some (Json.jstr v) →
      (getField data "skillCount" = none ∧ sc = 0 ∨
        getField data "skillCount" = some (Json.jint sc)) →
      (getField data "uptime" = none ∧ up = 0 ∨
        getField data "uptime" = some (Json.jint up)) →
      healthParse resp =
        .ok { status := st, version := v, skill_count := sc, uptime := up }) ∧
    (∀ (data : List (String × Json)) (hi mi sz mx : Int) (hr : Rat)
        (resp : HttpResponse),
      is2xx resp.status = true → resp.body = Json.jobj data →
      getField data "hits" = some (Json.jint hi) →
      getField data "misses" = some (Json.jint mi) →
      getField data "size" = some (Json.jint sz) →
      (getField data "maxSize" = none ∧ mx = 0 ∨
        getField data "maxSize" = some (Json.jint mx)) →
      (getField data "hitRate" = none ∧ hr = 0 ∨
        getField data "hitRate" = some (Json.jfloat hr)) →
      cacheStatsParse resp =
        .ok { hits := hi, misses := mi, size := sz, max_size := mx, hit_rate := hr }) := by
  constructor
  · intro data st v sc up resp h2 hb hst hv hsc hup
    have e : healthParse resp = healthBodyParse resp.body :=
      opParse_2xx healthBodyParse h2
    rw [hb, healthBodyParse_obj] at e
    have esc : getIntD data "skillCount" 0 = .ok sc := by
      rcases hsc with ⟨ha, hz⟩ | hp
      · rw [hz]; exact getIntD_none ha
      · exact getIntD_of_field hp
    have eup : getIntD data "uptime" 0 = .ok up := by
      rcases hup with ⟨ha, hz⟩ | hp
      · rw [hz]; exact getIntD_none ha
      · exact getIntD_of_field hp
    rw [e]
    simp only [getReqStr_of_field hst, getReqStr_of_field hv, esc, eup, except_bind_ok]
  · intro data hi mi sz mx hr resp h2 hb hhits hmiss hsize hmx hhr
    have e : cacheStatsParse resp = cacheStatsBodyParse resp.body :=
      opParse_2xx cacheStatsBodyParse h2
    rw [hb, cacheStatsBodyParse_obj] at e
    have emx : getIntD data "maxSize" 0 = .ok mx := by
      rcases hmx with ⟨ha, hz⟩ | hp
      · rw [hz]; exact getIntD_none ha
      · exact getIntD_of_field hp
    have ehr : getFloatD data "hitRate" 0 = .ok hr := by
      rcases hhr with ⟨ha, hz⟩ | hp
      · rw [hz]; exact getFloatD_none ha
      · exact getFloatD_of_field hp
    rw [e]
    simp only [getReqInt_of_field hhits, getReqInt_of_field hmiss,
      getReqInt_of_field hsize, emx, ehr, except_bind_ok]

/-- Witness for C4, exercising mixed present/absent combinations:
`skillCount` present with `uptime` absent for `health()`, and `maxSize`
absent with `hitRate` present for `cache_stats()`. -/
theorem health_cacheStats_mapping_spec_witness :
    is2xx 200 = true ∧
    healthParse ⟨200, Json.jobj [("status", Json.jstr "ok"),
        ("version", Json.jstr "1.11.0"), ("skillCount", Json.jint 100)]⟩ =
      .ok { status := "ok", version := "1.11.0", skill_count := 100, uptime := 0 } ∧
    cacheStatsParse ⟨200, Json.jobj [("hits", Json.jint 10), ("misses", Json.jint 5),
        ("size", Json.jint 8), ("hitRate", Json.jfloat (667/1000))]⟩ =
      .ok { hits := 10, misses := 5, size := 8, max_size := 0, hit_rate := 667/1000 } := by
  refine ⟨by decide, ?_, ?_⟩
  · exact health_cacheStats_mapping_spec.1
      [("status", Json.jstr "ok"), ("version", Json.jstr "1.11.0"),
        ("skillCount", Json.jint 100)] "ok" "1.11.0" 100 0
      ⟨200, Json.jobj [("status", Json.jstr "ok"), ("version", Json.jstr "1.11.0"),
        ("skillCount", Json.jint 100)]⟩
      (by decide) rfl rfl rfl (Or.inr rfl) (Or.inl ⟨rfl, rfl⟩)
  · exact health_cacheStats_mapping_spec.2
      [("hits", Json.jint 10), ("misses", Json.jint 5), ("size", Json.jint 8),
        ("hitRate", Json.jfloat (667/1000))] 10 5 8 0 (667/1000)
      ⟨200, Json.jobj [("hits", Json.jint 10), ("misses", Json.jint 5),
        ("size", Json.jint 8), ("hitRate", Json.jfloat (667/1000))]⟩
      (by decide) rfl rfl rfl rfl (Or.inl ⟨rfl, rfl⟩) (Or.inr rfl)

/-- Claim C5: `search` issues a GET to `/search` with query parameters exactly
`q` and `limit` (stringified), plus `include_content = "true"` iff the
flag is set; every element of the body's `skills` array is individually
parsed into a `Skill`, in order, and the call fails if any element is
malformed. -/
theorem search_spec :
    (∀ (q : String) (l : Int), searchRequest q l false =
      { method := "GET", path := "/search",
        params := [("q", q), ("limit", toString l)], jsonBody := none }) ∧
    (∀ (q : String) (l : Int), searchRequest q l true =
      { method := "GET", path := "/search",
        params := [("q", q), ("limit", toString l), ("include_content", "true")],
        jsonBody := none }) ∧
    (∀ (resp : HttpResponse) (data : List (String × Json)) (xs : List Json)
        (r : SearchResponse),
      is2xx resp.status = true → resp.body = Json.jobj data →
      getField data "skills" = some (Json.jarr xs) →
      searchParse resp = .ok r →
      List.Forall₂ (fun j sk => parseSkill j = .ok sk) xs r.skills) ∧
    (∀ (resp : HttpResponse) (data : List (String × Json)) (xs : List Json)
        (j : Json) (e0 : ClientError),
      is2xx resp.status = true → resp.body = Json.jobj data →
      getField data "skills" = some (Json.jarr xs) →
      j ∈ xs → parseSkill j = .error e0 →
      ∀ r, searchParse resp ≠ .ok r) := by
  refine ⟨fun q l => rfl, fun q l => rfl, ?_, ?_⟩
  · intro resp data xs r h2 hb hsk hok
    have e : searchParse resp = searchBodyParse resp.body :=
      opParse_2xx searchBodyParse h2
    rw [hb, searchBodyParse_obj] at e
    have hval : validateSearchResponse data = .ok r := e.symm.trans hok
    obtain ⟨hskills, -, -, -⟩ := validateSearchResponse_ok_inv hval
    have hlist : parseSkillList xs = .ok r.skills := by
      unfold getSkillListField at hskills
      rw [hsk] at hskills
      exact hskills
    exact (parseSkillList_ok_iff xs r.skills).mp hlist
  · intro resp data xs j e0 h2 hb hsk hj hperr r hok
    have e : searchParse resp = searchBodyParse resp.body :=
      opParse_2xx searchBodyParse h2
    rw [hb, searchBodyParse_obj] at e
    have hval : validateSearchResponse data = .ok r := e.symm.trans hok
    obtain ⟨hskills, -, -, -⟩ := validateSearchResponse_ok_inv hval
    have hlist : parseSkillList xs = .ok r.skills := by
      unfold getSkillListField at hskills
      rw [hsk] at hskills
      exact hskills
    obtain ⟨sk, -, hsk2⟩ :=
      forall₂_mem_left ((parseSkillList_ok_iff _ _).mp hlist) hj
    rw [hperr] at hsk2
    exact absurd hsk2 (by simp)

/-- Witness for C5: the repository's mocked search test. -/
theorem search_spec_witness :
    searchRequest "react" 20 false =
      { method := "GET", path := "/search",
        params := [("q", "react"), ("limit", "20")], jsonBody := none } ∧
    is2xx 200 = true ∧
    List.Forall₂ (fun j sk => parseSkill j = .ok sk)
      [Json.jobj [("name", Json.jstr "react-perf"), ("source", Json.jstr "owner/repo")]]
      [{ name := "react-perf", source := "owner/repo" }] := by
  refine ⟨search_spec.1 "react" 20, by decide, ?_⟩
  exact search_spec.2.2.1
    ⟨200, Json.jobj [("skills", Json.jarr [Json.jobj [("name", Json.jstr "react-perf"),
        ("source", Json.jstr "owner/repo")]]), ("total", Json.jint 1),
      ("query", Json.jstr "react"), ("limit", Json.jint 20)]⟩
    [("skills", Json.jarr [Json.jobj [("name", Json.jstr "react-perf"),
        ("source", Json.jstr "owner/repo")]]), ("total", Json.jint 1),
      ("query", Json.jstr "react"), ("limit", Json.jint 20)]
    [Json.jobj [("name", Json.jstr "react-perf"), ("source", Json.jstr "owner/repo")]]
    { skills := [{ name := "react-perf", source := "owner/repo" }], total := 1,
      query := "react", limit := 20 }
    (by decide) rfl rfl (by rfl)

/-- Claim C6: `trending()` returns the bare element-wise parse of the body's
`skills` array (the envelope's `limit` is never read), and `categories()`
the bare element-wise parse of `categories` (the envelope's `total` is
never read); both preserve order. -/
theorem trending_categories_spec :
    (∀ (resp : HttpResponse) (data : List (String × Json)) (xs : List Json),
      is2xx resp.status = true → resp.body = Json.jobj data →
      getField data "skills" = some (Json.jarr xs) →
      trendingParse resp = parseSkillList xs ∧
      ∀ sks, trendingParse resp = .ok sks →
        List.Forall₂ (fun j sk => parseSkill j = .ok sk) xs sks) ∧
    (∀ (resp : HttpResponse) (data : List (String × Json)) (ys : List Json),
      is2xx resp.status = true → resp.body = Json.jobj data →
      getField data "categories" = some (Json.jarr ys) →
      categoriesParse resp = parseCategoryList ys ∧
      ∀ cs, categoriesParse resp = .ok cs →
        List.Forall₂ (fun j c => parseCategory j = .ok c) ys cs) := by
  constructor
  · intro resp data xs h2 hb hsk
    have e : trendingParse resp = trendingBodyParse resp.body :=
      opParse_2xx trendingBodyParse h2
    rw [hb, trendingBodyParse_obj] at e
    have e2 : trendingParse resp = parseSkillList xs := by
      rw [e]
      unfold getSkillListField
      rw [hsk]
    exact ⟨e2, fun sks hok =>
      (parseSkillList_ok_iff xs sks).mp (e2.symm.trans hok)⟩
  · intro resp data ys h2 hb hcat
    have e : categoriesParse resp = categoriesBodyParse resp.body :=
      opParse_2xx categoriesBodyParse h2
    rw [hb, categoriesBodyParse_obj] at e
    have e2 : categoriesParse resp = parseCategoryList ys := by
      rw [e]
      unfold getCategoryListField
      rw [hcat]
    exact ⟨e2, fun cs hok =>
      (parseCategoryList_ok_iff ys cs).mp (e2.symm.trans hok)⟩

/-- Witness for C6 at the repository's mocked trending and categories
payloads. -/
theorem trending_categories_spec_witness :
    is2xx 200 = true ∧
    trendingParse ⟨200, Json.jobj [("skills", Json.jarr [Json.jobj
        [("name", Json.jstr "a"), ("source", Json.jstr "x/y")]]),
        ("limit", Json.jint 20)]⟩ =
      parseSkillList [Json.jobj [("name", Json.jstr "a"), ("source", Json.jstr "x/y")]] ∧
    categoriesParse ⟨200, Json.jobj [("categories", Json.jarr [Json.jobj
        [("name", Json.jstr "react"), ("count", Json.jint 5)]]),
        ("total", Json.jint 1)]⟩ =
      parseCategoryList [Json.jobj [("name", Json.jstr "react"), ("count", Json.jint 5)]] := by
  refine ⟨by decide, ?_, ?_⟩
  · exact (trending_categories_spec.1
      ⟨200, Json.jobj [("skills", Json.jarr [Json.jobj [("name", Json.jstr "a"),
        ("source", Json.jstr "x/y")]]), ("limit", Json.jint 20)]⟩
      [("skills", Json.jarr [Json.jobj [("name", Json.jstr "a"),
        ("source", Json.jstr "x/y")]]), ("limit", Json.jint 20)]
      [Json.jobj [("name", Json.jstr "a"), ("source", Json.jstr "x/y")]]
      (by decide) rfl rfl).1
  · exact (trending_categories_spec.2
      ⟨200, Json.jobj [("categories", Json.jarr [Json.jobj [("name", Json.jstr "react"),
        ("count", Json.jint 5)]]), ("total", Json.jint 1)]⟩
      [("categories", Json.jarr [Json.jobj [("name", Json.jstr "react"),
        ("count", Json.jint 5)]]), ("total", Json.jint 1)]
      [Json.jobj [("name", Json.jstr "react"), ("count", Json.jint 5)]]
      (by decide) rfl rfl).1

/-- Claim C1: every client operation fails with the HTTP-status error carrying
the status code and body on a non-2xx response (no record is returned:
the result type is all-or-nothing), and on a 2xx response it either
returns a fully parsed record or fails with a validation error — never an
HTTP-status error. -/
theorem error_handling_spec :
    (∀ resp : HttpResponse, is2xx resp.status = false →
      healthParse resp = .error (.httpStatus resp.status resp.body) ∧
      searchParse resp = .error (.httpStatus resp.status resp.body) ∧
      searchWithFiltersParse resp = .error (.httpStatus resp.status resp.body) ∧
      getSkillParse resp = .error (.httpStatus resp.status resp.body) ∧
      trendingParse resp = .error (.httpStatus resp.status resp.body) ∧
      categoriesParse resp = .error (.httpStatus resp.status resp.body) ∧
      cacheStatsParse resp = .error (.httpStatus resp.status resp.body)) ∧
    (∀ resp : HttpResponse, is2xx resp.status = true →
      ((∃ r, healthParse resp = .ok r) ∨
        (∃ m, healthParse resp = .error (.validation m))) ∧
      ((∃ r, searchParse resp = .ok r) ∨
        (∃ m, searchParse resp = .error (.validation m))) ∧
      ((∃ r, searchWithFiltersParse resp = .ok r) ∨
        (∃ m, searchWithFiltersParse resp = .error (.validation m))) ∧
      ((∃ r, getSkillParse resp = .ok r) ∨
        (∃ m, getSkillParse resp = .error (.validation m))) ∧
      ((∃ r, trendingParse resp = .ok r) ∨
        (∃ m, trendingParse resp = .error (.validation m))) ∧
      ((∃ r, categoriesParse resp = .ok r) ∨
        (∃ m, categoriesParse resp = .error (.validation m))) ∧
      ((∃ r, cacheStatsParse resp = .ok r) ∨
        (∃ m, cacheStatsParse resp = .error (.validation m)))) := by
  constructor
  · intro resp h
    exact ⟨opParse_non2xx healthBodyParse h, opParse_non2xx searchBodyParse h,
      opParse_non2xx searchBodyParse h, opParse_non2xx parseSkill h,
      opParse_non2xx trendingBodyParse h, opParse_non2xx categoriesBodyParse h,
      opParse_non2xx cacheStatsBodyParse h⟩
  · intro resp h
    have e1 : healthParse resp = healthBodyParse resp.body :=
      opParse_2xx healthBodyParse h
    have e2 : searchParse resp = searchBodyParse resp.body :=
      opParse_2xx searchBodyParse h
    have e3 : searchWithFiltersParse resp = searchBodyParse resp.body :=
      opParse_2xx searchBodyParse h
    have e4 : getSkillParse resp = parseSkill resp.body :=
      opParse_2xx parseSkill h
    have e5 : trendingParse resp = trendingBodyParse resp.body :=
      opParse_2xx trendingBodyParse h
    have e6 : categoriesParse resp = categoriesBodyParse resp.body :=
      opParse_2xx categoriesBodyParse h
    have e7 : cacheStatsParse resp = cacheStatsBodyParse resp.body :=
      opParse_2xx cacheStatsBodyParse h
    rw [e1, e2, e3, e4, e5, e6, e7]
    exact ⟨noHttpErr_cases (healthBodyParse_noHttp _),
      noHttpErr_cases (searchBodyParse_noHttp _),
      noHttpErr_cases (searchBodyParse_noHttp _),
      noHttpErr_cases (parseSkill_noHttp _),
      noHttpErr_cases (trendingBodyParse_noHttp _),
      noHttpErr_cases (categoriesBodyParse_noHttp _),
      noHttpErr_cases (cacheStatsBodyParse_noHttp _)⟩

/-- Witness for C1 at a mocked 404 and a 2xx with a malformed body. -/
theorem error_handling_spec_witness :
    is2xx 404 = false ∧
    healthParse ⟨404, Json.jnull⟩ = .error (.httpStatus 404 Json.jnull) ∧
    is2xx 200 = true ∧
    ((∃ r, healthParse ⟨200, Json.jnull⟩ = .ok r) ∨
      (∃ m, healthParse ⟨200, Json.jnull⟩ = .error (.validation m))) := by
  refine ⟨by decide, ?_, by decide, ?_⟩
  · exact (error_handling_spec.1 ⟨404, Json.jnull⟩ (by decide)).1
  · exact (error_handling_spec.2 ⟨200, Json.jnull⟩ (by decide)).1

/-- Claim C7 (counterexample): construction does not fail for every
wrongly-typed supplied field — the source's pydantic models run default
lax validation, which coerces: constructing `Category` with `count`
supplied as the string "5" (a string, not an integer) succeeds with
`count = 5` instead of raising a validation error. -/
theorem category_lax_coercion_counterexample :
    validateCategory [("name", Json.jstr "x"), ("count", Json.jstr "5")] =
      .ok { name := "x", count := 5 } ∧
    (∀ n : Int, Json.jstr "5" ≠ Json.jint n) :=
  ⟨by rfl, fun n h => Json.noConfusion h⟩

/-- Claim C7 (amended): for each data-model record type, construction from
a mapping fails with a validation error whenever the mapping does not
conform to the declared fields — a required field missing, or any
supplied field whose value is not convertible to the declared type under
pydantic's default lax validation (numeric strings and integral floats
convert to `int`, numbers and numeric strings to `float`; `str` and
`list[str]` fields accept only strings) — and when construction succeeds,
every optional field absent from the input equals its declared default. -/
theorem model_validation_spec :
    (∀ kvs, ¬ SkillConformant kvs →
      ∃ m, validateSkill kvs = .error (.validation m)) ∧
    (∀ kvs sk, validateSkill kvs = .ok sk →
      (getField kvs "description" = none → sk.description = none) ∧
      (getField kvs "repo" = none → sk.repo = none) ∧
      (getField kvs "tags" = none → sk.tags = none) ∧
      (getField kvs "category" = none → sk.category = none) ∧
      (getField kvs "content" = none → sk.content = none) ∧
      (getField kvs "stars" = none → sk.stars = none) ∧
      (getField kvs "installs" = none → sk.installs = none)) ∧
    (∀ kvs, ¬ SearchResponseConformant kvs →
      ∃ m, validateSearchResponse kvs = .error (.validation m)) ∧
    (∀ kvs, ¬ HealthResponseConformant kvs →
      ∃ m, validateHealthResponse kvs = .error (.validation m)) ∧
    (∀ kvs r, validateHealthResponse kvs = .ok r →
      (getField kvs "skill_count" = none → r.skill_count = 0) ∧
      (getField kvs "uptime" = none → r.uptime = 0)) ∧
    (∀ kvs, ¬ CacheStatsConformant kvs →
      ∃ m, validateCacheStats kvs = .error (.validation m)) ∧
    (∀ kvs r, validateCacheStats kvs = .ok r →
      (getField kvs "max_size" = none → r.max_size = 0) ∧
      (getField kvs "hit_rate" = none → r.hit_rate = 0)) ∧
    (∀ kvs, ¬ CategoryConformant kvs →
      ∃ m, validateCategory kvs = .error (.validation m)) ∧
    (∀ kvs, ¬ CategoriesResponseConformant kvs →
      ∃ m, validateCategoriesResponse kvs = .error (.validation m)) ∧
    (∀ kvs, ¬ TrendingResponseConformant kvs →
      ∃ m, validateTrendingResponse kvs = .error (.validation m)) :=
  ⟨fun _ => validateSkill_not_conformant,
   fun _ _ => validateSkill_defaults,
   fun _ => validateSearchResponse_not_conformant,
   fun _ => validateHealthResponse_not_conformant,
   fun _ _ => validateHealthResponse_defaults,
   fun _ => validateCacheStats_not_conformant,
   fun _ _ => validateCacheStats_defaults,
   fun _ => validateCategory_not_conformant,
   fun _ => validateCategoriesResponse_not_conformant,
   fun _ => validateTrendingResponse_not_conformant⟩

/-- Witness for C7: the empty mapping is non-conformant for `Skill`
(required `name` missing) and construction fails; a minimal conformant
mapping succeeds with every optional field at its default. -/
theorem model_validation_spec_witness :
    (¬ SkillConformant []) ∧
    (∃ m, validateSkill [] = .error (.validation m)) ∧
    validateSkill [("name", Json.jstr "a"), ("source", Json.jstr "b")] =
      .ok { name := "a", source := "b" } ∧
    ({ name := "a", source := "b" } : Skill).description = none := by
  have hnc : ¬ SkillConformant [] := by
    intro hc
    obtain ⟨s, hs⟩ := hc.1
    simp [getField] at hs
  have hok : validateSkill [("name", Json.jstr "a"), ("source", Json.jstr "b")] =
      .ok { name := "a", source := "b" } := by rfl
  exact ⟨hnc, model_validation_spec.1 [] hnc, hok,
    (model_validation_spec.2.1 _ _ hok).1 rfl⟩

end SkillKit
